import Mathlib

/-!
# Formal model of the yecc lexical core

A shallow embedding, in Lean 4, of the parts of the yecc compiler front end
that the specification's claims are about:

* the buffered byte streamer (`src/source/streamer.c`),
* the string-literal promotion rules (`src/source/lex/string_concat.c` and
  the inline copy in `src/source/lex/lexer.c`),
* keyword / identifier classification (`classify_ident`, `kw_lookup_ctx` and
  the `KW_DB` table in `src/source/lex/lexer.c`),
* numeric-constant scanning (`read_number`, `valid_int_suffix`),
* header-name lexing and the include-directive dispatch in `lexer_next`,
* the diagnostic reporter (`src/source/diag.c`),
* the `lexer_next` driver around EOF (`src/source/lex/lexer.c`).

Modelling conventions:

* C bytes are `Nat` values `0..255`; a file is a `List Nat`.  `size_t`
  arithmetic in the streamer never underflows on the paths the code can
  reach (each subtraction is guarded), so `Nat` subtraction is faithful.
* The `FILE *` handle is modelled as the immutable byte list itself; `fread`
  at offset `o` for `n` bytes yields the bytes `o ..< min (o+n) len` (short
  reads at end of file), which is exactly what `refill_buffer` sees.
* Diagnostics are pure side channels: functions whose observable results the
  claims mention (tokens, states, the emission log of `diag.c`) model them;
  purely advisory warnings inside the scanners are not tracked.
* Functions that loop over the stream recurse on an explicit `fuel` argument
  where the C loop's termination measure is not structural; every theorem
  below either holds for all fuel values or supplies fuel that dominates the
  C loop's actual iteration count.
-/

namespace Yecc

/-! ## String-literal kinds and promotion

From `src/source/lex/string_concat.c` (`ctx_wchar_bits`, `lit_info_of`,
`lit_promote`) and the inline copies in `src/source/lex/lexer.c`
(`lit_info_of`, `lit_promote`).  The two `lit_info_of` copies compute the
same data, so a single Lean definition serves both.
-/

inductive LitKind where
  | LIT_PLAIN
  | LIT_UTF8
  | LIT_UTF16
  | LIT_UTF32
  | LIT_WIDE
  deriving DecidableEq, Repr, Fintype

/-- `ctx_wchar_bits` (string_concat.c line 7): a zero / unset target wchar
width falls back to 32 bits.  The lexer.c copy inlines the same formula. -/
def ctx_wchar_bits (wchar_bits : Nat) : Nat :=
  if wchar_bits ≠ 0 then wchar_bits else 32

/-- `struct lit_info` without the diagnostic-only `name` string. -/
structure LitInfo where
  rank : Nat
  unit_bits : Nat
  deriving DecidableEq, Repr

/-- `lit_info_of` (string_concat.c lines 20-36, lexer.c lines 120-134). -/
def lit_info_of (k : LitKind) (wchar_bits : Nat) : LitInfo :=
  match k with
  | .LIT_PLAIN => ⟨0, 8⟩
  | .LIT_UTF8 => ⟨1, 8⟩
  | .LIT_UTF16 => ⟨2, 16⟩
  | .LIT_UTF32 => ⟨3, 32⟩
  | .LIT_WIDE => ⟨4, ctx_wchar_bits wchar_bits⟩

/-- `lit_promote` of the concatenation pass (string_concat.c lines 48-68):
rank-maximal kind, then the non-narrowing override that widens to `UTF16` or
`UTF32` when the ranked result's code units are narrower than some input's. -/
def lit_promote_pass (a b : LitKind) (wchar_bits : Nat) : LitKind :=
  let A := lit_info_of a wchar_bits
  let B := lit_info_of b wchar_bits
  let r := if A.rank ≥ B.rank then a else b
  let R := lit_info_of r wchar_bits
  let need_bits := if A.unit_bits ≥ B.unit_bits then A.unit_bits else B.unit_bits
  if R.unit_bits < need_bits then
    if need_bits ≥ 32 then .LIT_UTF32
    else if need_bits = 16 then .LIT_UTF16
    else r
  else r

/-- `lit_promote` of the lexer's inline concatenation (lexer.c lines
136-142): rank-maximal kind only; the second component is the
`*out_widened` flag (which the call site passes `nullptr` for). -/
def lit_promote_inline (a b : LitKind) (wchar_bits : Nat) : LitKind × Bool :=
  let A := lit_info_of a wchar_bits
  let B := lit_info_of b wchar_bits
  ((if A.rank ≥ B.rank then a else b),
    A.rank ≠ (if A.rank > B.rank then A.rank else B.rank))

/-- The promotion rule exactly as the claim states it (for comparison with
the code's two versions): ranked result, except widening to UTF-32 whenever
some input's code-unit width exceeds the ranked result's. -/
def lit_promote_claim (a b : LitKind) (wchar_bits : Nat) : LitKind :=
  let A := lit_info_of a wchar_bits
  let B := lit_info_of b wchar_bits
  let r := if A.rank ≥ B.rank then a else b
  if (lit_info_of r wchar_bits).unit_bits < max A.unit_bits B.unit_bits then
    .LIT_UTF32
  else r

/-- Rank-maximal input kind, the common core of all three rules. -/
def lit_ranked (a b : LitKind) (wchar_bits : Nat) : LitKind :=
  if (lit_info_of a wchar_bits).rank ≥ (lit_info_of b wchar_bits).rank then a else b

/-- Larger of the two input code-unit widths. -/
def lit_need_bits (a b : LitKind) (wchar_bits : Nat) : Nat :=
  max (lit_info_of a wchar_bits).unit_bits (lit_info_of b wchar_bits).unit_bits

/-! ## Keyword table and identifier classification

From `src/source/lex/lexer.c`: the `KW_DB` X-macro (lines 520-628),
`struct kw_entry`, `kw_lookup_first` / `kw_lookup_next` / `kw_lookup_ctx`
(lines 648-752) and `classify_ident` (lines 754-763).
-/

/-- `enum token_kind` restricted to the constructors this development
needs: the meta/class kinds plus every kind named by the `KW_DB` table. -/
inductive TokenKind where
  | error
  | eof
  | identifier
  | integer_constant
  | floating_constant
  | character_constant
  | string_literal
  | header_name
  | kw___asm__
  | kw_asm
  | kw_typeof
  | kw___attribute__
  | kw___builtin_types_compatible_p
  | kw___auto_type
  | kw___extension__
  | kw___label__
  | kw___real__
  | kw___imag__
  | kw___thread
  | kw___function__
  | kw___int128
  | kw___const__
  | kw___signed__
  | kw___inline__
  | kw___restrict__
  | kw___volatile__
  | kw_auto
  | kw_typedef
  | kw_break
  | kw_case
  | kw_char
  | kw_const
  | kw_continue
  | kw_default
  | kw_do
  | kw_double
  | kw_enum
  | kw_extern_
  | kw_float
  | kw_for
  | kw_goto
  | kw_inline
  | kw_int
  | kw_long
  | kw_register
  | kw_restrict
  | kw_return
  | kw_short
  | kw_signed
  | kw_sizeof
  | kw_static
  | kw_struct
  | kw_switch
  | kw_union
  | kw_unsigned
  | kw_void
  | kw_volatile
  | kw_while
  | kw__bool
  | kw__complex
  | kw_imaginary
  | kw__static_assert
  | kw_noreturn
  | kw_generic
  | kw_atomic
  | pp_elifdef
  | pp_elifndef
  | kw_alignas
  | kw_alignof
  | kw_thread_local
  | kw_bool
  | kw_true
  | kw_false
  | kw__bitint
  | kw__decimal32
  | kw__decimal64
  | kw__decimal128
  | kw__float32
  | kw__float64
  | kw__float80
  | kw__float128
  | pp_defined
  | pp_include
  | pp_define
  | pp_undef
  | pp_if
  | pp_ifdef
  | pp_ifndef
  | pp_elif
  | pp_else
  | kw_if
  | kw_else
  | pp_endif
  | pp_error
  | pp_line
  | pp_pragma
  | kw__pragma
  | pp_warning
  | pp_embed
  | pp___has_include
  | pp___has_c_attribute
  | pp__assert
  | pp__assert_any
  | pp___va_opt__
  | pp_include_next
  | pp_import
  | pp_ident
  | pp_sccs
  | pp_assert
  | pp_unassert
  deriving DecidableEq, Repr
/-- `struct kw_entry` (lexer.c lines 633-641).  `spelling_form` and
`c23_status` are kept as the raw numeric codes of the table. -/
structure KwEntry where
  name : String
  kind : TokenKind
  is_pp : Bool
  min_std : Nat
  gnu_only : Bool
  spelling_form : Nat
  c23_status : Nat
  deriving DecidableEq, Repr

/-- The `KW_DB` table (lexer.c lines 520-628), row for row:
`(name, kind, is_pp, min_std, gnu_only, spelling_form, c23_status)`. -/
def KW_TABLE_1 : List KwEntry := [
  ⟨"__asm__", .kw___asm__, false, 0, true, 0, 0⟩,
  ⟨"asm", .kw_asm, false, 0, true, 0, 0⟩,
  ⟨"typeof", .kw_typeof, false, 0, true, 0, 0⟩,
  ⟨"__attribute__", .kw___attribute__, false, 0, true, 0, 0⟩,
  ⟨"__builtin_types_compatible_p", .kw___builtin_types_compatible_p, false, 0, true, 0, 0⟩,
  ⟨"__auto_type", .kw___auto_type, false, 0, true, 0, 0⟩,
  ⟨"__extension__", .kw___extension__, false, 0, true, 0, 0⟩,
  ⟨"__label__", .kw___label__, false, 0, true, 0, 0⟩,
  ⟨"__real__", .kw___real__, false, 0, true, 0, 0⟩,
  ⟨"__imag__", .kw___imag__, false, 0, true, 0, 0⟩,
  ⟨"__thread", .kw___thread, false, 0, true, 0, 0⟩,
  ⟨"__FUNCTION__", .kw___function__, false, 0, true, 0, 0⟩,
  ⟨"__int128", .kw___int128, false, 0, true, 0, 0⟩,
  ⟨"__const__", .kw___const__, false, 0, true, 0, 0⟩,
  ⟨"__signed__", .kw___signed__, false, 0, true, 0, 0⟩,
  ⟨"__inline__", .kw___inline__, false, 0, true, 0, 0⟩,
  ⟨"__restrict__", .kw___restrict__, false, 0, true, 0, 0⟩,
  ⟨"__volatile__", .kw___volatile__, false, 0, true, 0, 0⟩,
  ⟨"auto", .kw_auto, false, 0, false, 0, 0⟩,
  ⟨"typedef", .kw_typedef, false, 0, false, 0, 0⟩,
  ⟨"break", .kw_break, false, 0, false, 0, 0⟩,
  ⟨"case", .kw_case, false, 0, false, 0, 0⟩,
  ⟨"char", .kw_char, false, 0, false, 0, 0⟩,
  ⟨"const", .kw_const, false, 0, false, 0, 0⟩,
  ⟨"continue", .kw_continue, false, 0, false, 0, 0⟩,
  ⟨"default", .kw_default, false, 0, false, 0, 0⟩,
  ⟨"do", .kw_do, false, 0, false, 0, 0⟩,
  ⟨"double", .kw_double, false, 0, false, 0, 0⟩,
  ⟨"enum", .kw_enum, false, 0, false, 0, 0⟩,
  ⟨"extern", .kw_extern_, false, 0, false, 0, 0⟩,
  ⟨"float", .kw_float, false, 0, false, 0, 0⟩,
  ⟨"for", .kw_for, false, 0, false, 0, 0⟩,
  ⟨"goto", .kw_goto, false, 0, false, 0, 0⟩,
  ⟨"inline", .kw_inline, false, 1, false, 0, 0⟩,
  ⟨"int", .kw_int, false, 0, false, 0, 0⟩,
  ⟨"long", .kw_long, false, 0, false, 0, 0⟩,
]

def KW_TABLE_2 : List KwEntry := [
  ⟨"register", .kw_register, false, 0, false, 0, 1⟩,
  ⟨"restrict", .kw_restrict, false, 1, false, 0, 0⟩,
  ⟨"return", .kw_return, false, 0, false, 0, 0⟩,
  ⟨"short", .kw_short, false, 0, false, 0, 0⟩,
  ⟨"signed", .kw_signed, false, 0, false, 0, 0⟩,
  ⟨"sizeof", .kw_sizeof, false, 0, false, 0, 0⟩,
  ⟨"static", .kw_static, false, 0, false, 0, 0⟩,
  ⟨"struct", .kw_struct, false, 0, false, 0, 0⟩,
  ⟨"switch", .kw_switch, false, 0, false, 0, 0⟩,
  ⟨"union", .kw_union, false, 0, false, 0, 0⟩,
  ⟨"unsigned", .kw_unsigned, false, 0, false, 0, 0⟩,
  ⟨"void", .kw_void, false, 0, false, 0, 0⟩,
  ⟨"volatile", .kw_volatile, false, 0, false, 0, 0⟩,
  ⟨"while", .kw_while, false, 0, false, 0, 0⟩,
  ⟨"_Bool", .kw__bool, false, 1, false, 0, 0⟩,
  ⟨"_Complex", .kw__complex, false, 1, false, 0, 0⟩,
  ⟨"_Imaginary", .kw_imaginary, false, 1, false, 0, 2⟩,
  ⟨"_Static_assert", .kw__static_assert, false, 2, false, 1, 0⟩,
  ⟨"_Noreturn", .kw_noreturn, false, 2, false, 0, 1⟩,
  ⟨"_Generic", .kw_generic, false, 2, false, 0, 0⟩,
  ⟨"_Atomic", .kw_atomic, false, 2, false, 0, 0⟩,
  ⟨"static_assert", .kw__static_assert, false, 3, false, 2, 0⟩,
  ⟨"elifdef", .pp_elifdef, true, 3, false, 0, 0⟩,
  ⟨"elifndef", .pp_elifndef, true, 3, false, 0, 0⟩,
  ⟨"alignas", .kw_alignas, false, 3, false, 2, 0⟩,
  ⟨"alignof", .kw_alignof, false, 3, false, 2, 0⟩,
  ⟨"thread_local", .kw_thread_local, false, 3, false, 2, 0⟩,
  ⟨"bool", .kw_bool, false, 3, false, 0, 0⟩,
  ⟨"true", .kw_true, false, 3, false, 0, 0⟩,
  ⟨"false", .kw_false, false, 3, false, 0, 0⟩,
  ⟨"_BitInt", .kw__bitint, false, 3, false, 0, 0⟩,
  ⟨"_Decimal32", .kw__decimal32, false, 3, false, 0, 0⟩,
  ⟨"_Decimal64", .kw__decimal64, false, 3, false, 0, 0⟩,
  ⟨"_Decimal128", .kw__decimal128, false, 3, false, 0, 0⟩,
  ⟨"_Float32", .kw__float32, false, 3, false, 0, 0⟩,
  ⟨"_Float64", .kw__float64, false, 3, false, 0, 0⟩,
]

def KW_TABLE_3 : List KwEntry := [
  ⟨"_Float80", .kw__float80, false, 3, false, 0, 0⟩,
  ⟨"_Float128", .kw__float128, false, 3, false, 0, 0⟩,
  ⟨"_Alignas", .kw_alignas, false, 2, false, 1, 0⟩,
  ⟨"_Alignof", .kw_alignof, false, 2, false, 1, 0⟩,
  ⟨"_Thread_local", .kw_thread_local, false, 2, false, 1, 0⟩,
  ⟨"defined", .pp_defined, true, 0, false, 0, 0⟩,
  ⟨"include", .pp_include, true, 0, false, 0, 0⟩,
  ⟨"define", .pp_define, true, 0, false, 0, 0⟩,
  ⟨"undef", .pp_undef, true, 0, false, 0, 0⟩,
  ⟨"if", .pp_if, true, 0, false, 0, 0⟩,
  ⟨"ifdef", .pp_ifdef, true, 0, false, 0, 0⟩,
  ⟨"ifndef", .pp_ifndef, true, 0, false, 0, 0⟩,
  ⟨"elif", .pp_elif, true, 0, false, 0, 0⟩,
  ⟨"else", .pp_else, true, 0, false, 0, 0⟩,
  ⟨"if", .kw_if, false, 0, false, 0, 0⟩,
  ⟨"else", .kw_else, false, 0, false, 0, 0⟩,
  ⟨"endif", .pp_endif, true, 0, false, 0, 0⟩,
  ⟨"error", .pp_error, true, 0, false, 0, 0⟩,
  ⟨"line", .pp_line, true, 0, false, 0, 0⟩,
  ⟨"pragma", .pp_pragma, true, 0, false, 0, 0⟩,
  ⟨"_Pragma", .kw__pragma, false, 1, false, 0, 0⟩,
  ⟨"warning", .pp_warning, true, 3, false, 0, 0⟩,
  ⟨"embed", .pp_embed, true, 3, false, 0, 0⟩,
  ⟨"__has_include", .pp___has_include, true, 3, false, 0, 0⟩,
  ⟨"__has_c_attribute", .pp___has_c_attribute, true, 3, false, 0, 0⟩,
  ⟨"__assert", .pp__assert, true, 0, false, 0, 0⟩,
  ⟨"__assert_any", .pp__assert_any, true, 0, false, 0, 0⟩,
  ⟨"__VA_OPT__", .pp___va_opt__, true, 3, false, 0, 0⟩,
  ⟨"include_next", .pp_include_next, true, 0, true, 0, 0⟩,
  ⟨"import", .pp_import, true, 0, true, 0, 0⟩,
  ⟨"ident", .pp_ident, true, 0, true, 0, 0⟩,
  ⟨"sccs", .pp_sccs, true, 0, true, 0, 0⟩,
  ⟨"assert", .pp_assert, true, 0, true, 0, 0⟩,
  ⟨"unassert", .pp_unassert, true, 0, true, 0, 0⟩,
]

def KW_TABLE : List KwEntry := KW_TABLE_1 ++ KW_TABLE_2 ++ KW_TABLE_3

/-- All table entries whose spelling is `s`, in table order.  The C side
walks these with `kw_lookup_first` / `kw_lookup_next` (lexer.c 648-666). -/
def kw_matches (s : String) : List KwEntry :=
  KW_TABLE.filter (fun e => e.name == s)

/-- `kw_lookup_ctx` (lexer.c lines 734-752).  The C loop returns the first
match whose `is_pp` equals `in_directive` and otherwise falls back to
`best`, the first match of any kind; `find?` / `head?` over `kw_matches`
computes exactly that. -/
def kw_lookup_ctx (s : String) (in_directive : Bool) : Option KwEntry :=
  match (kw_matches s).find? (fun e => e.is_pp == in_directive) with
  | some e => some e
  | none => (kw_matches s).head?

/-- `classify_ident` (lexer.c lines 754-763). -/
def classify_ident (s : String) (in_directive : Bool) : TokenKind :=
  match kw_lookup_ctx s in_directive with
  | none => .identifier
  | some E => if E.is_pp && !in_directive then .identifier else E.kind


/-! ## The byte streamer

From `src/source/streamer.c` together with `src/source/base/streamer.h`
(the header the .c file compiles against: `STREAMER_BUFFER_SIZE 8192`,
`STREAMER_PUSHBACK_DEPTH 8`, the parallel pushback arrays).

The `FILE *` handle and the 8192-byte window are modelled by keeping the
whole immutable file and the window coordinates: after any `refill_buffer`
the C buffer holds exactly the file bytes starting at `buffer_start`, so
`buffer[i]` is `file[buffer_start + i]`.  `fopen`/`fseek`/`fread` never
fail in the model (the failure paths propagate I/O errors that a byte-list
file cannot produce).  The pushback stack is a list whose head is the top
(index `pushback_len - 1` in C).
-/

def STREAMER_BUFFER_SIZE : Nat := 8192

def STREAMER_PUSHBACK_DEPTH : Nat := 8

/-- One pushback slot: `(pushback_buf[i], pushback_line[i], pushback_column[i])`. -/
structure PushbackEntry where
  byte : Nat
  line : Nat
  column : Nat
  deriving DecidableEq, Repr

/-- `struct streamer` (base/streamer.h lines 22-45) minus `filename` and the
`FILE *` handle; the buffer array is implicit (see the section comment). -/
structure Streamer where
  file : List Nat
  pos : Nat
  buffer_start : Nat
  buffer_len : Nat
  buffer_pos : Nat
  line : Nat
  column : Nat
  pushback : List PushbackEntry
  last_char : Nat
  prev_line : Nat
  prev_column : Nat
  deriving DecidableEq, Repr

/-- The byte the C code reads as `s->buffer[s->buffer_pos]`. -/
def buffer_byte (s : Streamer) : Nat :=
  s.file.getD (s.buffer_start + s.buffer_pos) 0

/-- `refill_buffer` (streamer.c lines 4-18): `fread` at `buffer_start`
returns `min 8192 (len - buffer_start)` bytes; then `buffer_pos` is clamped
to the new length. -/
def refill_buffer (s : Streamer) : Streamer :=
  let blen := min STREAMER_BUFFER_SIZE (s.file.length - s.buffer_start)
  let bpos := s.pos - s.buffer_start
  { s with buffer_len := blen, buffer_pos := if bpos > blen then blen else bpos }

/-- `streamer_open` (streamer.c lines 20-54) on an in-memory file. -/
def streamer_open (file : List Nat) : Streamer :=
  refill_buffer
    { file := file, pos := 0, buffer_start := 0, buffer_len := 0, buffer_pos := 0,
      line := 1, column := 1, pushback := [], last_char := 0,
      prev_line := 0, prev_column := 0 }

/-- `streamer_eof` (streamer.c line 66). -/
def streamer_eof (s : Streamer) : Bool := s.file.length ≤ s.pos

/-- `streamer_peek` (streamer.c lines 92-107).  Returns the byte (or `none`
for EOF) together with the state, which may have been refilled. -/
def streamer_peek (s : Streamer) : Option Nat × Streamer :=
  match s.pushback with
  | e :: _ => (some e.byte, s)
  | [] =>
    if s.file.length ≤ s.pos then (none, s)
    else if s.buffer_len ≤ s.buffer_pos then
      let t := refill_buffer
        { s with buffer_start := s.pos - s.pos % STREAMER_BUFFER_SIZE }
      if t.buffer_len = 0 then (none, t) else (some (buffer_byte t), t)
    else (some (buffer_byte s), s)

/-- `streamer_next` (streamer.c lines 109-144). -/
def streamer_next (s : Streamer) : Option Nat × Streamer :=
  match s.pushback with
  | e :: rest =>
    (some e.byte,
      { s with pushback := rest, line := e.line, column := e.column,
               pos := s.pos + 1, buffer_pos := s.buffer_pos + 1, last_char := e.byte })
  | [] =>
    match streamer_peek s with
    | (none, t) => (none, t)
    | (some c, t) =>
      let t := { t with prev_line := t.line, prev_column := t.column,
                        pos := t.pos + 1, buffer_pos := t.buffer_pos + 1, last_char := c }
      if c = 10 then (some c, { t with line := t.line + 1, column := 1 })
      else (some c, { t with column := t.column + 1 })

/-- `streamer_unget` (streamer.c lines 146-171). -/
def streamer_unget (s : Streamer) : Bool × Streamer :=
  if s.pos = 0 ∨ STREAMER_PUSHBACK_DEPTH ≤ s.pushback.length then (false, s)
  else
    let s₁ := { s with pos := s.pos - 1 }
    let s₂ :=
      if 0 < s₁.buffer_pos then { s₁ with buffer_pos := s₁.buffer_pos - 1 }
      else
        let t := refill_buffer
          { s₁ with buffer_start := s₁.pos - s₁.pos % STREAMER_BUFFER_SIZE }
        { t with buffer_pos := t.pos - t.buffer_start }
    let c := buffer_byte s₂
    (true, { s₂ with pushback := ⟨c, s₂.line, s₂.column⟩ :: s₂.pushback, last_char := c })

/-- The `while (s->pos < offset) streamer_next(s)` walk of `streamer_seek`
(streamer.c lines 83-87).  `fuel` bounds the iteration count; since every
successful `streamer_next` advances `pos` by exactly one, `fuel = offset`
covers the walk that starts from `pos = 0`. -/
def streamer_seek_walk : Nat → Nat → Streamer → Bool × Streamer
  | 0, target, s => (decide (target ≤ s.pos), s)
  | fuel + 1, target, s =>
    if s.pos < target then
      match streamer_next s with
      | (none, t) => (false, t)
      | (some _, t) => streamer_seek_walk fuel target t
    else (true, s)

/-- `streamer_seek` (streamer.c lines 68-90): reject past-the-end offsets,
reset to the start of the file, refill, then re-walk forward to recompute
line/column. -/
def streamer_seek (s : Streamer) (offset : Nat) : Bool × Streamer :=
  if s.file.length < offset then (false, s)
  else
    let t := refill_buffer
      { s with pos := 0, buffer_start := 0, buffer_len := 0, buffer_pos := 0,
               line := 1, column := 1, pushback := [] }
    streamer_seek_walk offset offset t

/-- `struct source_position` without the filename. -/
structure SourcePos where
  line : Nat
  column : Nat
  offset : Nat
  deriving DecidableEq, Repr

/-- `streamer_position` (streamer.c lines 173-175). -/
def streamer_position (s : Streamer) : SourcePos :=
  ⟨s.line, s.column, s.pos⟩

/-- One cell of the `streamer_get_blob` window (streamer.c lines 177-216):
`cache[i]` is `file[pos - 2 + i]` when that index lies inside the file and
`0` otherwise.  All three C paths (copy from the buffer, which always holds
file bytes; `fseek`+`fread`, which zero-pads past EOF; the out-of-range
early returns) produce exactly these bytes. -/
def blob_at (s : Streamer) (i : Nat) : Nat :=
  if 2 ≤ s.pos + i ∧ s.pos + i - 2 < s.file.length then s.file.getD (s.pos + i - 2) 0
  else 0

/-- `streamer_get_blob` as the 5-byte window `cache[0..4]`.  The C function
only touches the `FILE *` handle (and restores its offset), so the model is
a pure observation of the state. -/
def streamer_get_blob (s : Streamer) : List Nat :=
  (List.range 5).map (blob_at s)

/-- The streamer's inductive state invariant.  `pos + pushback.length ≤ len`
strengthens the specified `pos ≤ len` (every pushed-back byte lies below
`len`); `pos = buffer_start + buffer_pos` holds in fact whether or not the
pushback stack is empty. -/
def streamer_inv (s : Streamer) : Prop :=
  s.pos = s.buffer_start + s.buffer_pos ∧
  s.pos + s.pushback.length ≤ s.file.length ∧
  1 ≤ s.line ∧
  1 ≤ s.column ∧
  (∀ e ∈ s.pushback, 1 ≤ e.line ∧ 1 ≤ e.column) ∧
  s.pushback.length ≤ STREAMER_PUSHBACK_DEPTH

instance (s : Streamer) : Decidable (streamer_inv s) := by
  unfold streamer_inv
  infer_instance


/-! ## Lexer state and initialisation

From `src/source/lex/lexer.h` (`enum yecc_pp_kind`, `struct lexer`) and
`lexer_init` (lexer.c lines 2090-2110).  Of the compilation context the
modelled functions read only `enable_trigraphs`; every other context field
the lexer consults (standards, GNU mode, warning masks, `wchar_bits`,
`float_mode`) gates diagnostics or data already modelled elsewhere, so the
context is passed where the C passes `lx->ctx`.
-/

/-- `enum yecc_pp_kind` (lexer.h lines 12-19). -/
inductive PpKind where
  | YECC_PP_NONE
  | YECC_PP_INCLUDE
  | YECC_PP_INCLUDE_NEXT
  | YECC_PP_IMPORT
  | YECC_PP_EMBED
  | YECC_PP_OTHER
  deriving DecidableEq, Repr

/-- The context fields the modelled lexer paths read. -/
structure YeccContext where
  enable_trigraphs : Bool
  gnu_extensions : Bool
  deriving DecidableEq, Repr

/-- `struct lexer` (lexer.h lines 21-29) minus the context pointer. -/
structure Lexer where
  s : Streamer
  at_line_start : Bool
  in_directive : Bool
  pp_kind : PpKind
  expect_header_name : Bool
  deriving DecidableEq, Repr

/-- The BOM test of `lexer_init` (lexer.c line 2099): the blob cells 2..4
hold EF BB BF. -/
def bom_at_start (s : Streamer) : Bool :=
  ((streamer_get_blob s).getD 2 0 == 0xEF) &&
    ((streamer_get_blob s).getD 3 0 == 0xBB) &&
    ((streamer_get_blob s).getD 4 0 == 0xBF)

/-- `lexer_init` (lexer.c lines 2090-2110): open the streamer, silently
consume a UTF-8 BOM (resetting `column` to 0), reset the mode flags.  The
`setlocale` calls and the open-failure path have no counterpart on an
in-memory file. -/
def lexer_init (file : List Nat) : Lexer :=
  let s := streamer_open file
  let s :=
    if bom_at_start s then
      let s := (streamer_next s).2
      let s := (streamer_next s).2
      let s := (streamer_next s).2
      { s with column := 0 }
    else s
  { s := s, at_line_start := true, in_directive := false,
    pp_kind := .YECC_PP_NONE, expect_header_name := false }


/-! ## ASCII predicates

The C code runs `setlocale(LC_CTYPE, "C")` in `lexer_init`, so
`isdigit` / `isxdigit` / `isalpha` / `isalnum` / `isspace` have their plain
ASCII meaning on the byte range the lexer feeds them.
-/

def is_digit (c : Nat) : Bool := 48 ≤ c && c ≤ 57

def is_xdigit (c : Nat) : Bool :=
  is_digit c || (65 ≤ c && c ≤ 70) || (97 ≤ c && c ≤ 102)

def is_alpha (c : Nat) : Bool := (65 ≤ c && c ≤ 90) || (97 ≤ c && c ≤ 122)

def is_alnum (c : Nat) : Bool := is_digit c || is_alpha c

def is_space (c : Nat) : Bool :=
  c = 32 || c = 9 || c = 10 || c = 11 || c = 12 || c = 13

def is_bin_digit (c : Nat) : Bool := c = 48 || c = 49

def to_lower (c : Nat) : Nat := if 65 ≤ c && c ≤ 90 then c + 32 else c

/-! ## Numeric-constant scanning: read_number

From `read_number` (lexer.c lines 994-1419) and its helpers
(`valid_int_suffix`, lines 961-972; `float_suffix_table` and
`classify_float_suffix_lc`, lines 974-992).

The model works on the list of bytes that `streamer_peek` / `NEXT` deliver
to `read_number`.  Inside `read_number` every loop condition uses the raw
`streamer_peek`, and `NEXT` (`streamer_next_preproc`) is only invoked on a
byte the raw peek just confirmed to be a digit, letter, sign, dot, quote or
underscore - never `\` or `?` - so the splice/trigraph absorption inside
`NEXT` fires on none of these call sites and consuming the head of the
list is exactly what the C performs.

Bookkeeping that exists only to drive diagnostics is not tracked: the
separator-placement flags (`at_seq_start`, `prev_was_digit`,
`last_was_sep`, `used_quote_sep`, `used_underscore_sep`), the octal 8/9
check, the `endptr`/`ERANGE` reports and the standard/dialect warnings
change no token and no stream position.  `buf` never receives separator
bytes (`HANDLE_SEP` pushes nothing), so the C's `num` (buf with separators
stripped) equals `buf` itself.
-/

/-- One digits-with-separators loop of `read_number`: keep consuming while
the byte is a digit for the current base or a `'` / `_` separator; only
digits are pushed. -/
def scan_digits_seps (dig : Nat → Bool) : List Nat → List Nat × List Nat
  | [] => ([], [])
  | c :: l =>
    if dig c then
      let r := scan_digits_seps dig l
      (c :: r.1, r.2)
    else if c = 39 || c = 95 then scan_digits_seps dig l
    else ([], c :: l)

/-- The integer-suffix collection loop (lexer.c 1239-1242).  `strchr`
matches the terminating NUL of "uUlL", so a NUL byte is also consumed. -/
def is_int_suffix_char (c : Nat) : Bool :=
  c = 117 || c = 85 || c = 108 || c = 76 || c = 0

def scan_int_suffix : List Nat → List Nat × List Nat
  | [] => ([], [])
  | c :: l =>
    if is_int_suffix_char c then
      let r := scan_int_suffix l
      (c :: r.1, r.2)
    else ([], c :: l)

/-- `valid_int_suffix` (lexer.c 961-972).  The C walks the NUL-terminated
suffix string, so a NUL byte ends the walk. -/
def valid_int_suffix_core : List Nat → Nat → Nat → Bool
  | [], u, l => u ≤ 1 && l ≤ 2
  | c :: rest, u, l =>
    if c = 0 then u ≤ 1 && l ≤ 2
    else if c = 117 || c = 85 then valid_int_suffix_core rest (u + 1) l
    else if c = 108 || c = 76 then valid_int_suffix_core rest u (l + 1)
    else false

def valid_int_suffix (s : List Nat) : Bool := valid_int_suffix_core s 0 0

/-- The float-suffix collection loop (lexer.c 1199-1209): at most 7 bytes,
alphanumeric, stopping at an imaginary suffix letter. -/
def is_imag_char (c : Nat) : Bool := c = 105 || c = 73 || c = 106 || c = 74

def scan_float_suffix : Nat → List Nat → List Nat × List Nat
  | _, [] => ([], [])
  | 0, l => ([], l)
  | cap + 1, c :: l =>
    if is_alnum c && !is_imag_char c then
      let r := scan_float_suffix cap l
      (c :: r.1, r.2)
    else ([], c :: l)

/-- `enum token_float_suffix` values used by `read_number`. -/
inductive FloatSuffix where
  | TOKEN_FSUF_NONE
  | TOKEN_FSUF_f
  | TOKEN_FSUF_l
  | TOKEN_FSUF_f16
  | TOKEN_FSUF_f32
  | TOKEN_FSUF_f64
  | TOKEN_FSUF_f128
  | TOKEN_FSUF_f32x
  | TOKEN_FSUF_f64x
  | TOKEN_FSUF_f128x
  | TOKEN_FSUF_df
  | TOKEN_FSUF_dd
  | TOKEN_FSUF_dl
  deriving DecidableEq, Repr

/-- `float_suffix_table` (lexer.c 974-981), spellings as byte lists. -/
def float_suffix_table : List (List Nat × FloatSuffix) :=
  [([102], .TOKEN_FSUF_f), ([108], .TOKEN_FSUF_l),
   ([102, 49, 54], .TOKEN_FSUF_f16), ([102, 51, 50], .TOKEN_FSUF_f32),
   ([102, 54, 52], .TOKEN_FSUF_f64), ([102, 49, 50, 56], .TOKEN_FSUF_f128),
   ([102, 51, 50, 120], .TOKEN_FSUF_f32x), ([102, 54, 52, 120], .TOKEN_FSUF_f64x),
   ([102, 49, 50, 56, 120], .TOKEN_FSUF_f128x),
   ([100, 102], .TOKEN_FSUF_df), ([100, 100], .TOKEN_FSUF_dd),
   ([100, 108], .TOKEN_FSUF_dl)]

/-- `classify_float_suffix_lc` (lexer.c 983-992). -/
def classify_float_suffix_lc (lc : List Nat) : FloatSuffix :=
  if lc.isEmpty then .TOKEN_FSUF_NONE
  else
    match float_suffix_table.find? (fun e => e.1 == lc) with
    | some e => e.2
    | none => .TOKEN_FSUF_NONE

/-- The `ok_suffix` validation of `read_number` (lexer.c 1213-1231); the
branches that merely emit dialect warnings are collapsed into `true`. -/
def float_suffix_ok (low : List Nat) : Bool :=
  if low.isEmpty then true
  else if low = [102] || low = [108] then true
  else if low = [102, 49, 54] || low = [102, 51, 50] || low = [102, 54, 52] ||
      low = [102, 49, 50, 56] || low = [102, 51, 50, 120] ||
      low = [102, 54, 52, 120] || low = [102, 49, 50, 56, 120] then true
  else if low = [100, 102] || low = [100, 100] || low = [100, 108] then true
  else false

/-- `enum token_int_base`. -/
inductive IntBase where
  | TOKEN_INT_BASE_NONE
  | TOKEN_INT_BASE_2
  | TOKEN_INT_BASE_8
  | TOKEN_INT_BASE_10
  | TOKEN_INT_BASE_16
  deriving DecidableEq, Repr

/-- `enum token_float_style`. -/
inductive FloatStyle where
  | TOKEN_FLOAT_DEC
  | TOKEN_FLOAT_HEX
  deriving DecidableEq, Repr

/-- The flags `read_number` threads through its scan (lexer.c 998-1013);
`entered_e` is `in_exp` restricted to the decimal `e`/`E` branch, which is
how line 1284 reads it. -/
structure NumFlags where
  is_float : Bool
  is_hex_float : Bool
  used_bin : Bool
  entered_e : Bool
  saw_hex_sig_digit : Bool
  saw_p : Bool
  saw_exp_digit : Bool
  saw_dec_exp_digit : Bool
  deriving DecidableEq, Repr

/-- The token fields of `read_number`'s result that the model tracks.  The
`strtod` value of floating constants is host floating point and is not
modelled; the integer value is (strtoull/strtoll clamp at the type
maximum, the custom binary path wraps mod 2^64). -/
structure NumToken where
  kind : TokenKind
  err : String
  base : IntBase
  style : FloatStyle
  fsuffix : FloatSuffix
  is_unsigned : Bool
  lcount : Nat
  value : Nat
  deriving DecidableEq, Repr

/-- Result of the `read_number` model: the token, the accumulated spelling
(`buf`, separators excluded, suffixes excluded) and the unconsumed rest of
the input. -/
structure NumScanResult where
  tok : NumToken
  lexeme : List Nat
  rest : List Nat
  deriving DecidableEq, Repr

def num_error (msg : String) (lexeme rest : List Nat) : NumScanResult :=
  ⟨⟨.error, msg, .TOKEN_INT_BASE_NONE, .TOKEN_FLOAT_DEC, .TOKEN_FSUF_NONE,
    false, 0, 0⟩, lexeme, rest⟩

def digit_val (c : Nat) : Nat :=
  if is_digit c then c - 48
  else if 65 ≤ c && c ≤ 70 then c - 55
  else if 97 ≤ c && c ≤ 102 then c - 87
  else 0

def base_digit_ok (base : Nat) (c : Nat) : Bool :=
  if base = 16 then is_xdigit c
  else if base = 8 then 48 ≤ c && c ≤ 55
  else is_digit c

/-- Digit-run conversion with the clamping `strtoull`/`strtoll` perform on
overflow (`limit` is ULLONG_MAX or LLONG_MAX). -/
def parse_digits (base limit : Nat) : List Nat → Nat → Nat
  | [], acc => acc
  | c :: t, acc =>
    if base_digit_ok base c then
      parse_digits base limit t (min (acc * base + digit_val c) limit)
    else acc

/-- `strtoull`/`strtoll` with base 0 on `num` (no sign, no whitespace in a
`read_number` buffer): 0x/0X selects hex, a leading 0 octal, else
decimal. -/
def strtoul_base0 (limit : Nat) (num : List Nat) : Nat :=
  match num with
  | 48 :: c :: t =>
    if c = 120 || c = 88 then parse_digits 16 limit t 0
    else parse_digits 8 limit (c :: t) 0
  | num => parse_digits 10 limit num 0

/-- The custom overflow-aware binary conversion (lexer.c 1355-1362): the
value accumulates in an unsigned 64-bit variable, wrapping. -/
def bin_value (ds : List Nat) : Nat :=
  ds.foldl (fun acc c => (2 * acc + (c - 48)) % (2 ^ 64)) 0

/-- The tail of `read_number` after all digit scanning (lexer.c
1197-1418): suffix collection and validation, the imaginary-suffix
consumption, the hex-float / exponent checks, and token construction. -/
def read_number_finish (buf : List Nat) (fl : NumFlags) (suf : List Nat)
    (fsuffix : FloatSuffix) (l : List Nat) : NumScanResult :=
  let l :=
    match l with
    | c :: t => if is_imag_char c then t else c :: t
    | [] => []
  if !valid_int_suffix suf then
    num_error "bad integer suffix" buf l
  else if fl.is_hex_float && !fl.saw_p then
    num_error "missing p exponent" buf l
  else if fl.is_hex_float && fl.saw_p && !fl.saw_exp_digit then
    num_error "digits after p exponent" buf l
  else if fl.is_hex_float && !fl.saw_hex_sig_digit then
    num_error "no significant hex digits" buf l
  else if fl.is_float && !fl.is_hex_float && fl.entered_e && !fl.saw_dec_exp_digit then
    num_error "no digits after e" buf l
  else if fl.is_float then
    ⟨⟨.floating_constant, "", .TOKEN_INT_BASE_NONE,
      (if fl.is_hex_float then .TOKEN_FLOAT_HEX else .TOKEN_FLOAT_DEC),
      fsuffix, false, 0, 0⟩, buf, l⟩
  else
    let is_unsigned := suf.any (fun c => c = 117 || c = 85)
    let lcount := suf.countP (fun c => c = 108 || c = 76)
    if fl.used_bin && buf.length = 2 then
      num_error "" buf l
    else
      let value :=
        if fl.used_bin then bin_value (buf.drop 2)
        else if is_unsigned then strtoul_base0 (2 ^ 64 - 1) buf
        else strtoul_base0 (2 ^ 63 - 1) buf
      let base :=
        if fl.used_bin then IntBase.TOKEN_INT_BASE_2
        else if buf.headD 0 = 48 && (buf.getD 1 0 = 120 || buf.getD 1 0 = 88) then
          IntBase.TOKEN_INT_BASE_16
        else if buf.headD 0 = 48 && buf.length ≠ 1 then IntBase.TOKEN_INT_BASE_8
        else IntBase.TOKEN_INT_BASE_10
      ⟨⟨.integer_constant, "", base, .TOKEN_FLOAT_DEC, .TOKEN_FSUF_NONE,
        is_unsigned, lcount, value⟩, buf, l⟩

/-- The suffix-collection step (lexer.c 1197-1243): float suffixes go
through the `ok_suffix` validation, integer suffixes are collected for the
later `valid_int_suffix` check. -/
def read_number_suffix (buf : List Nat) (fl : NumFlags) (l : List Nat) :
    NumScanResult :=
  if fl.is_float then
    let r := scan_float_suffix 7 l
    let low := r.1.map to_lower
    if float_suffix_ok low then
      read_number_finish buf fl [] (classify_float_suffix_lc low) r.2
    else
      num_error "bad floating suffix" buf r.2
  else
    let r := scan_int_suffix l
    read_number_finish buf fl r.1 .TOKEN_FSUF_NONE r.2

/-- The common decimal-exponent step (lexer.c 1179-1195): every scan path
that is not already a hex float checks for `e`/`E` here. -/
def read_number_after_scan (buf : List Nat) (is_float is_hex_float used_bin : Bool)
    (saw_hex saw_p saw_exp : Bool) (l : List Nat) : NumScanResult :=
  match l with
  | 101 :: t =>
    if is_hex_float then
      read_number_suffix buf ⟨is_float, is_hex_float, used_bin, false, saw_hex, saw_p, saw_exp, false⟩ l
    else
      let s := match t with
        | 43 :: t2 => ([43], t2)
        | 45 :: t2 => ([45], t2)
        | t2 => ([], t2)
      let r := scan_digits_seps is_digit s.2
      read_number_suffix (buf ++ 101 :: s.1 ++ r.1)
        ⟨true, false, used_bin, true, saw_hex, saw_p, saw_exp, !r.1.isEmpty⟩ r.2
  | 69 :: t =>
    if is_hex_float then
      read_number_suffix buf ⟨is_float, is_hex_float, used_bin, false, saw_hex, saw_p, saw_exp, false⟩ l
    else
      let s := match t with
        | 43 :: t2 => ([43], t2)
        | 45 :: t2 => ([45], t2)
        | t2 => ([], t2)
      let r := scan_digits_seps is_digit s.2
      read_number_suffix (buf ++ 69 :: s.1 ++ r.1)
        ⟨true, false, used_bin, true, saw_hex, saw_p, saw_exp, !r.1.isEmpty⟩ r.2
  | l =>
    read_number_suffix buf ⟨is_float, is_hex_float, used_bin, false, saw_hex, saw_p, saw_exp, false⟩ l

/-- The hex-float exponent step of the `0x` branch (lexer.c 1109-1125):
`p`/`P` was just seen, consume an optional sign and the exponent digits. -/
def read_number_hex_exp (buf : List Nat) (pc : Nat) (saw_hex : Bool) (l : List Nat) :
    NumScanResult :=
  let s := match l with
    | 43 :: t => ([43], t)
    | 45 :: t => ([45], t)
    | t => ([], t)
  let r := scan_digits_seps is_digit s.2
  read_number_after_scan (buf ++ pc :: s.1 ++ r.1) true true false saw_hex true
    (!r.1.isEmpty) r.2

/-- The `0x` branch (lexer.c 1083-1126). -/
def read_number_hex (buf0 : List Nat) (l : List Nat) : NumScanResult :=
  let r1 := scan_digits_seps is_xdigit l
  let buf := buf0 ++ r1.1
  let saw1 := !r1.1.isEmpty
  if r1.2.headD 0 = 46 && !r1.2.isEmpty then
    let r2 := scan_digits_seps is_xdigit r1.2.tail
    let buf := buf ++ 46 :: r2.1
    let saw2 := saw1 || !r2.1.isEmpty
    match r2.2 with
    | 112 :: t => read_number_hex_exp buf 112 saw2 t
    | 80 :: t => read_number_hex_exp buf 80 saw2 t
    | rest => read_number_after_scan buf true true false saw2 false false rest
  else
    match r1.2 with
    | 112 :: t => read_number_hex_exp buf 112 saw1 t
    | 80 :: t => read_number_hex_exp buf 80 saw1 t
    | rest => read_number_after_scan buf false false false saw1 false false rest

/-- The `0b` branch (lexer.c 1127-1136). -/
def read_number_bin (buf0 : List Nat) (l : List Nat) : NumScanResult :=
  let r := scan_digits_seps is_bin_digit l
  read_number_after_scan (buf0 ++ r.1) false false true false false false r.2

/-- A decimal digit run followed by an optional fraction (lexer.c
1137-1151 after a leading zero, 1162-1176 in the general case). -/
def read_number_dec (buf0 : List Nat) (l : List Nat) : NumScanResult :=
  let r := scan_digits_seps is_digit l
  let buf := buf0 ++ r.1
  match r.2 with
  | 46 :: t =>
    let r2 := scan_digits_seps is_digit t
    read_number_after_scan (buf ++ 46 :: r2.1) true false false false false false r2.2
  | rest => read_number_after_scan buf false false false false false false rest

/-- The leading-dot branch (lexer.c 1153-1161). -/
def read_number_dot (l : List Nat) : NumScanResult :=
  let r := scan_digits_seps is_digit l
  read_number_after_scan (46 :: r.1) true false false false false false r.2

/-- `read_number` (lexer.c 994-1419) over the byte stream: base selection
on a leading zero, then the branch-specific scans, the shared
decimal-exponent step, suffixes, checks and token construction. -/
def read_number (l : List Nat) : NumScanResult :=
  match l with
  | 48 :: 120 :: l2 => read_number_hex [48, 120] l2
  | 48 :: 88 :: l2 => read_number_hex [48, 88] l2
  | 48 :: 98 :: l2 => read_number_bin [48, 98] l2
  | 48 :: 66 :: l2 => read_number_bin [48, 66] l2
  | 48 :: l1 => read_number_dec [48] l1
  | 46 :: l1 => read_number_dot l1
  | l => read_number_dec [] l

/-! ## Diagnostics sink

From `src/source/diag.c`.  `diag_reportv` (lines 137-149) unconditionally
prints the `yecc: file:line:column` header and the rendered source window
for every call; its parameters are the level, the span and the message -
it receives no compilation context, and neither it nor any caller counts
errors or consults `max_errors` (the `yecc_context` field is only
initialised to 20 in `yecc_context_init` and stored by
`yecc_context_set_max_errors`).  The model records the level of each
diagnostic written to stderr.
-/

inductive DiagLevel where
  | DIAG_LEVEL_ERROR
  | DIAG_LEVEL_WARNING
  | DIAG_LEVEL_NOTE
  | DIAG_LEVEL_INFO
  deriving DecidableEq, Repr

/-- The stderr stream, reduced to the levels of the diagnostics emitted. -/
structure DiagState where
  emitted : List DiagLevel
  deriving DecidableEq, Repr

/-- `diag_reportv` (diag.c 137-149): every call renders one diagnostic. -/
def diag_reportv (lvl : DiagLevel) (st : DiagState) : DiagState :=
  ⟨st.emitted ++ [lvl]⟩

/-- A sequence of `diag_reportv` calls (as `diag_error` / `diag_warning` /
... perform, diag.c 151-196). -/
def run_diags (levels : List DiagLevel) (st : DiagState) : DiagState :=
  levels.foldl (fun st lvl => diag_reportv lvl st) st

/-- Number of error-severity diagnostics on stderr. -/
def diag_error_count (st : DiagState) : Nat :=
  st.emitted.count .DIAG_LEVEL_ERROR

/-! ## Header names and the include-directive dispatch

From `is_include_like` / `is_embed_kw` / `pp_note_after_keyword` (lexer.c
712-732), the `expect_header_name` dispatch inside `lexer_next` (lexer.c
2159-2173) and `read_header_name` (lexer.c 826-849).
-/

/-- `is_include_like` (lexer.c 712-714). -/
def is_include_like (k : TokenKind) : Bool :=
  k = .pp_include || k = .pp_include_next || k = .pp_import

/-- `is_embed_kw` (lexer.c 715). -/
def is_embed_kw (k : TokenKind) : Bool := k = .pp_embed

/-- `pp_note_after_keyword` (lexer.c 717-732). -/
def pp_note_after_keyword (lx : Lexer) (k : TokenKind) : Lexer :=
  if !lx.in_directive then lx
  else if is_include_like k then
    { lx with
      pp_kind :=
        if k = .pp_include then .YECC_PP_INCLUDE
        else if k = .pp_include_next then .YECC_PP_INCLUDE_NEXT
        else .YECC_PP_IMPORT,
      expect_header_name := true }
  else if is_embed_kw k then
    { lx with pp_kind := .YECC_PP_EMBED, expect_header_name := true }
  else
    { lx with pp_kind := .YECC_PP_OTHER, expect_header_name := false }

/-- Which header-name reader (if any) `lexer_next` enters for the next
byte `c` (lexer.c 2159-2173): the `<...>` form only for `#include` and
`#include_next`; the quoted form also for `#import` and `#embed`. -/
inductive HeaderDecision where
  | angle
  | quoted
  | fallthrough
  deriving DecidableEq, Repr

def header_name_dispatch (in_directive expect : Bool) (pk : PpKind)
    (c : Option Nat) : HeaderDecision :=
  if in_directive && expect then
    if (pk = .YECC_PP_INCLUDE || pk = .YECC_PP_INCLUDE_NEXT) && c = some 60 then
      .angle
    else if (pk = .YECC_PP_INCLUDE || pk = .YECC_PP_INCLUDE_NEXT ||
        pk = .YECC_PP_IMPORT || pk = .YECC_PP_EMBED) && c = some 34 then
      .quoted
    else .fallthrough
  else .fallthrough

/-- `skip_to_safe_point`'s byte consumption (lexer.c 379-394): eat bytes
until a newline or `;` (consumed) or EOF. -/
def skip_to_safe_point_bytes : List Nat → List Nat
  | [] => []
  | 10 :: t => t
  | 59 :: t => t
  | _ :: t => skip_to_safe_point_bytes t

/-- The capture loop of `read_header_name` (lexer.c 830-832). -/
def rhn_capture : List Nat → List Nat × List Nat
  | [] => ([], [])
  | c :: t =>
    if c = 62 || c = 10 then ([], c :: t)
    else
      let r := rhn_capture t
      (c :: r.1, r.2)

/-- `read_header_name` (lexer.c 826-849) on the byte stream, for input
free of line splices and trigraphs (on such input `NEXT` consumes exactly
one byte, see the `read_number` section comment): consume the `<`, capture
until `>` or newline, return the payload on `>` (`none` models the
unterminated-header ERROR token, after `skip_to_safe_point`). -/
def read_header_name_bytes (l : List Nat) : Option (List Nat) × List Nat :=
  let l := l.tail
  let r := rhn_capture l
  match r.2 with
  | 62 :: t => (some r.1, t)
  | rest => (none, skip_to_safe_point_bytes rest)


/-! ## The top of `lexer_next` (claim C9)

`lexer_next` (lexer.c 2114-2196) with the seven `read_*` token readers it
tail-calls left as parameters (`LexReaders`): the claim concerns only the
control flow `lexer_next` itself performs before dispatching, and once the
streamer is at end of file no reader is ever reached, so every theorem
below holds for all readers.  The C `for(;;)`/`while` loops are bounded by
an explicit `fuel` parameter; the theorems hold for every fuel.  The
diagnostics these paths can emit (`diag_alt_token`, `diag_extension`,
`diag_error`) do not change the lexer state or the token stream and are
omitted here (they are modelled separately by the `Diag` definitions). -/

/-- `struct token`, reduced to its kind and source span. -/
structure Token where
  kind : TokenKind
  start : SourcePos
  finish : SourcePos
  deriving DecidableEq, Repr

/-- `skip_line_splice` (lexer.c 172-184). -/
def skip_line_splice : Nat → Streamer → Streamer
  | 0, s => s
  | fuel + 1, s =>
    let b := streamer_get_blob s
    if b.getD 2 0 == 92 && (b.getD 3 0 == 10 || (b.getD 3 0 == 13 && b.getD 4 0 == 10)) then
      let s := (streamer_next s).2
      let s := (streamer_next s).2
      let s := if b.getD 3 0 == 13 then (streamer_next s).2 else s
      skip_line_splice fuel s
    else s

/-- The third byte of each `ALT_TRI_TABLE` pattern, mapped to the
replacement byte (lexer.c 194-197). -/
def trigraph_rep (c : Nat) : Option Nat :=
  if c = 61 then some 35
  else if c = 47 then some 92
  else if c = 39 then some 94
  else if c = 40 then some 91
  else if c = 41 then some 93
  else if c = 33 then some 124
  else if c = 60 then some 123
  else if c = 62 then some 125
  else if c = 45 then some 126
  else none

/-- `try_trigraph` (lexer.c 204-255), minus the diagnostics.  Returns the
mapped byte when a trigraph is consumed. -/
def try_trigraph (ctx : YeccContext) (s : Streamer) : Option Nat × Streamer :=
  match streamer_peek s with
  | (a, s1) =>
    if a ≠ some 63 then (none, s1)
    else
      let s2 := (streamer_next s1).2
      match streamer_peek s2 with
      | (b, s3) =>
        if b ≠ some 63 then (none, (streamer_unget s3).2)
        else
          let s4 := (streamer_next s3).2
          match streamer_peek s4 with
          | (none, s5) => (none, (streamer_unget (streamer_unget s5).2).2)
          | (some c, s5) =>
            match trigraph_rep c with
            | none => (none, (streamer_unget (streamer_unget s5).2).2)
            | some rep =>
              let s6 := (streamer_next s5).2
              if ctx.enable_trigraphs then (some rep, s6)
              else (none, (streamer_unget (streamer_unget (streamer_unget s6).2).2).2)

/-- `streamer_next_preproc` (lexer.c 258-278): absorb line splices, then a
trigraph if enabled, else one plain byte. -/
def streamer_next_preproc (ctx : YeccContext) (fuel : Nat) (s : Streamer) :
    Option Nat × Streamer :=
  let s := skip_line_splice fuel s
  match try_trigraph ctx s with
  | (some m, t) => (some m, t)
  | (none, t) => streamer_next t

/-- `skip_pp_hspace` (lexer.c 283-305). -/
def skip_pp_hspace : Nat → Streamer → Streamer
  | 0, s => s
  | fuel + 1, s =>
    let b := streamer_get_blob s
    if b.getD 2 0 == 92 && b.getD 3 0 == 10 then
      skip_pp_hspace fuel (streamer_next (streamer_next s).2).2
    else if b.getD 2 0 == 92 && b.getD 3 0 == 13 && b.getD 4 0 == 10 then
      skip_pp_hspace fuel (streamer_next (streamer_next (streamer_next s).2).2).2
    else
      match streamer_peek s with
      | (c, s1) =>
        if c = some 32 ∨ c = some 9 ∨ c = some 11 ∨ c = some 12 then
          skip_pp_hspace fuel (streamer_next s1).2
        else s1

/-- The whitespace loop of `skip_space_and_comments` (lexer.c 780-786). -/
def skip_spaces_loop (ctx : YeccContext) : Nat → Lexer → Lexer
  | 0, lx => lx
  | fuel + 1, lx =>
    if streamer_eof lx.s then lx
    else
      match streamer_peek lx.s with
      | (c, s1) =>
        if (match c with | some c => is_space c | none => false) then
          match streamer_next_preproc ctx (fuel + 1) s1 with
          | (d, s2) =>
            let lx := { lx with s := s2 }
            let lx := if d = some 10 then
                { lx with at_line_start := true, in_directive := false }
              else lx
            skip_spaces_loop ctx fuel lx
        else { lx with s := s1 }

/-- The `//` comment loop of `skip_space_and_comments` (lexer.c 795-798). -/
def line_comment_loop (ctx : YeccContext) : Nat → Streamer → Streamer
  | 0, s => s
  | fuel + 1, s =>
    if streamer_eof s then s
    else
      match streamer_next_preproc ctx (fuel + 1) s with
      | (d, s2) => if d = some 10 then s2 else line_comment_loop ctx fuel s2

/-- The `/* ... */` loop (lexer.c 805-812): whether it was closed, and the
state after it. -/
def block_comment_loop (ctx : YeccContext) : Nat → Streamer → Bool × Streamer
  | 0, s => (false, s)
  | fuel + 1, s =>
    if streamer_eof s then (false, s)
    else
      match streamer_next_preproc ctx (fuel + 1) s with
      | (d, s2) =>
        if d = some 42 then
          match streamer_peek s2 with
          | (p, s3) =>
            if p = some 47 then (true, (streamer_next_preproc ctx (fuel + 1) s3).2)
            else block_comment_loop ctx fuel s3
        else block_comment_loop ctx fuel s2

/-- The scan loop of `skip_to_safe_point` (lexer.c 381-391): whether it
stopped on a newline. -/
def safe_point_loop (ctx : YeccContext) : Nat → Streamer → Bool × Streamer
  | 0, s => (false, s)
  | fuel + 1, s =>
    match streamer_next_preproc ctx (fuel + 1) s with
    | (none, t) => (false, t)
    | (some 10, t) => (true, t)
    | (some 59, t) => (false, t)
    | (some _, t) => safe_point_loop ctx fuel t

/-- `skip_to_safe_point` (lexer.c 379-394) on the lexer state. -/
def skip_to_safe_point (ctx : YeccContext) (fuel : Nat) (lx : Lexer) : Lexer :=
  match safe_point_loop ctx fuel lx.s with
  | (nl, s1) =>
    match streamer_peek s1 with
    | (p, s2) =>
      { lx with s := s2, at_line_start := nl || p == some 10, in_directive := false }

/-- One iteration of the `skip_space_and_comments` loop body (lexer.c
777-823), minus the diagnostics (the C89 `//` extension note and the
unterminated-comment error); `go` is the loop continuation. -/
def skip_space_and_comments_step (ctx : YeccContext) (fuel : Nat)
    (go : Lexer → Lexer) (lx : Lexer) : Lexer :=
  let lx := { lx with s := skip_line_splice fuel lx.s }
  let lx := skip_spaces_loop ctx fuel lx
  let p := (streamer_peek lx.s).1
  let lx := { lx with s := (streamer_peek lx.s).2 }
  if p = some 47 then
    let b := streamer_get_blob lx.s
    if b.getD 2 0 == 47 && b.getD 3 0 == 47 then
      let s2 := (streamer_next_preproc ctx fuel lx.s).2
      let s3 := (streamer_next_preproc ctx fuel s2).2
      let s4 := line_comment_loop ctx fuel s3
      go { lx with s := s4, at_line_start := true, in_directive := false }
    else if b.getD 2 0 == 47 && b.getD 3 0 == 42 then
      let s2 := (streamer_next_preproc ctx fuel lx.s).2
      let s3 := (streamer_next_preproc ctx fuel s2).2
      let cl := block_comment_loop ctx fuel s3
      let lx := { lx with s := cl.2 }
      let lx := if cl.1 then lx else skip_to_safe_point ctx fuel lx
      go lx
    else lx
  else lx

/-- `skip_space_and_comments` (lexer.c 776-824). -/
def skip_space_and_comments (ctx : YeccContext) : Nat → Lexer → Lexer
  | 0, lx => lx
  | fuel + 1, lx =>
    skip_space_and_comments_step ctx (fuel + 1) (skip_space_and_comments ctx fuel) lx

/-- The seven token readers `lexer_next` can tail-call, as parameters. -/
structure LexReaders where
  read_punctuator : Lexer → Token × Lexer
  read_number : Lexer → Token × Lexer
  read_header_name : Lexer → Token × Lexer
  read_quoted_header_name : Lexer → Token × Lexer
  read_string_literal : Lexer → Token × Lexer
  read_char_literal : Lexer → Token × Lexer
  read_ident : Lexer → Token × Lexer

/-- `lexer_next` from the `in_directive` newline check on (lexer.c
2137-2196): the EOF return, then the dispatch to the readers.  The
`copt = none` arm mirrors `(unsigned char)(-1) >= 0x80` sending a `-1`
peek into `read_ident`; it is unreachable because the EOF return above
fires first. -/
def lexer_next_rest (R : LexReaders) (ctx : YeccContext) (fuel : Nat) (lx : Lexer) :
    Token × Lexer :=
  let lx :=
    if lx.in_directive then
      let lx := { lx with s := skip_pp_hspace fuel lx.s }
      match streamer_peek lx.s with
      | (p, s1) =>
        if p = some 10 then
          { lx with s := (streamer_next s1).2, at_line_start := true, in_directive := false }
        else { lx with s := s1 }
    else lx
  let pos := streamer_position lx.s
  if streamer_eof lx.s then (⟨.eof, pos, pos⟩, lx)
  else
    match streamer_peek lx.s with
    | (copt, s1) =>
      let lx := { lx with s := s1 }
      let la := streamer_get_blob lx.s
      match copt with
      | none => R.read_ident { lx with at_line_start := false }
      | some c =>
        if is_digit c || (c == 46 && is_digit (la.getD 3 0)) then
          R.read_number { lx with at_line_start := false }
        else if lx.in_directive && lx.expect_header_name &&
            (lx.pp_kind == .YECC_PP_INCLUDE || lx.pp_kind == .YECC_PP_INCLUDE_NEXT) &&
            c == 60 then
          match R.read_header_name lx with
          | (t, lx1) => (t, { lx1 with expect_header_name := false })
        else if lx.in_directive && lx.expect_header_name &&
            (lx.pp_kind == .YECC_PP_INCLUDE || lx.pp_kind == .YECC_PP_INCLUDE_NEXT ||
              lx.pp_kind == .YECC_PP_IMPORT || lx.pp_kind == .YECC_PP_EMBED) &&
            c == 34 then
          match R.read_quoted_header_name lx with
          | (t, lx1) => (t, { lx1 with expect_header_name := false })
        else
          let lx := if lx.in_directive && lx.expect_header_name then
              { lx with expect_header_name := false }
            else lx
          let bl := streamer_get_blob lx.s
          if c == 34 || ((c == 117 || c == 85 || c == 76) && bl.getD 3 0 == 34) ||
              (c == 117 && bl.getD 3 0 == 56 && bl.getD 4 0 == 34) then
            R.read_string_literal { lx with at_line_start := false }
          else if c == 39 || ((c == 117 || c == 85 || c == 76) && bl.getD 3 0 == 39) ||
              (c == 117 && bl.getD 3 0 == 56 && bl.getD 4 0 == 39) then
            R.read_char_literal { lx with at_line_start := false }
          else if is_alpha c || c == 95 || decide (128 ≤ c) ||
              (ctx.gnu_extensions && c == 36) then
            R.read_ident { lx with at_line_start := false }
          else R.read_punctuator { lx with at_line_start := false }

/-- `lexer_next` (lexer.c 2114-2196). -/
def lexer_next (R : LexReaders) (ctx : YeccContext) (fuel : Nat) (lx : Lexer) :
    Token × Lexer :=
  let lx := skip_space_and_comments ctx fuel lx
  if lx.at_line_start then
    let saved := streamer_position lx.s
    let lx := { lx with s := skip_pp_hspace fuel lx.s }
    let b := streamer_get_blob lx.s
    let is_hash := b.getD 2 0 == 35
    let tri_hash := b.getD 2 0 == 63 && b.getD 3 0 == 63 && b.getD 4 0 == 61
    let dig_hash := b.getD 2 0 == 37 && b.getD 3 0 == 58
    if is_hash || (ctx.enable_trigraphs && (tri_hash || dig_hash)) then
      R.read_punctuator { lx with at_line_start := false, in_directive := true, pp_kind := .YECC_PP_NONE, expect_header_name := false }
    else
      lexer_next_rest R ctx fuel { lx with s := (streamer_seek lx.s saved.offset).2 }
  else lexer_next_rest R ctx fuel lx

/-- The n-th token `lexer_next` produces from state `lx`. -/
def lexer_nth (R : LexReaders) (ctx : YeccContext) (fuel : Nat) :
    Nat → Lexer → Token
  | 0, lx => (lexer_next R ctx fuel lx).1
  | n + 1, lx => lexer_nth R ctx fuel n (lexer_next R ctx fuel lx).2

/-- The streamer is at end of file with no pushed-back bytes; this is what
`streamer_eof` observes under the streamer invariant. -/
def at_eof (s : Streamer) : Prop :=
  s.file.length ≤ s.pos ∧ s.pushback = []

instance (s : Streamer) : Decidable (at_eof s) := by
  unfold at_eof
  infer_instance

/-- A vacuous reader assignment, for instantiating `LexReaders` at
concrete inputs. -/
def null_reader : Lexer → Token × Lexer :=
  fun lx => (⟨.error, ⟨1, 1, 0⟩, ⟨1, 1, 0⟩⟩, lx)

def null_readers : LexReaders :=
  ⟨null_reader, null_reader, null_reader, null_reader, null_reader,
    null_reader, null_reader⟩


/-! # Theorems -/

/-! ## Streamer frame lemmas (shared helpers) -/

theorem streamer_peek_pos (s : Streamer) : (streamer_peek s).2.pos = s.pos := by
  obtain ⟨f, p, bs, bl, bp, ln, col, pb, lc, pl, pc⟩ := s
  cases pb <;> (simp only [streamer_peek]; repeat' split) <;> rfl

theorem streamer_peek_line (s : Streamer) : (streamer_peek s).2.line = s.line := by
  obtain ⟨f, p, bs, bl, bp, ln, col, pb, lc, pl, pc⟩ := s
  cases pb <;> (simp only [streamer_peek]; repeat' split) <;> rfl

theorem streamer_peek_column (s : Streamer) : (streamer_peek s).2.column = s.column := by
  obtain ⟨f, p, bs, bl, bp, ln, col, pb, lc, pl, pc⟩ := s
  cases pb <;> (simp only [streamer_peek]; repeat' split) <;> rfl

theorem streamer_peek_pushback (s : Streamer) : (streamer_peek s).2.pushback = s.pushback := by
  obtain ⟨f, p, bs, bl, bp, ln, col, pb, lc, pl, pc⟩ := s
  cases pb <;> (simp only [streamer_peek]; repeat' split) <;> rfl

theorem streamer_peek_file (s : Streamer) : (streamer_peek s).2.file = s.file := by
  obtain ⟨f, p, bs, bl, bp, ln, col, pb, lc, pl, pc⟩ := s
  cases pb <;> (simp only [streamer_peek]; repeat' split) <;> rfl

theorem streamer_peek_idem (s : Streamer) :
    streamer_peek ((streamer_peek s).2) = streamer_peek s := by
  obtain ⟨f, p, bs, bl, bp, ln, col, pb, lc, pl, pc⟩ := s
  cases pb with
  | cons e rest => rfl
  | nil =>
    by_cases h1 : f.length ≤ p
    · have h : streamer_peek ⟨f, p, bs, bl, bp, ln, col, [], lc, pl, pc⟩ =
          (none, ⟨f, p, bs, bl, bp, ln, col, [], lc, pl, pc⟩) := by
        simp only [streamer_peek, if_pos h1]
      rw [h, h]
    · by_cases h2 : bl ≤ bp
      · set bs2 := p - p % STREAMER_BUFFER_SIZE with hbs2
        set bl2 := min STREAMER_BUFFER_SIZE (f.length - bs2) with hbl2
        have hsz : (0:Nat) < STREAMER_BUFFER_SIZE := by
          simp [STREAMER_BUFFER_SIZE]
        have hmod : p % STREAMER_BUFFER_SIZE ≤ p := Nat.mod_le _ _
        have hmodlt : p % STREAMER_BUFFER_SIZE < STREAMER_BUFFER_SIZE :=
          Nat.mod_lt _ hsz
        have hlt : p - bs2 < bl2 := by
          rw [hbl2]
          omega
        have hbl2pos : bl2 ≠ 0 := by omega
        have hre : (refill_buffer ⟨f, p, bs2, bl, bp, ln, col, [], lc, pl, pc⟩ : Streamer) =
            ⟨f, p, bs2, bl2, p - bs2, ln, col, [], lc, pl, pc⟩ := by
          simp only [refill_buffer]
          have hnc : ¬ bl2 < p - bs2 := by omega
          simp only [← hbl2]
          rw [if_neg hnc]
        have h : streamer_peek ⟨f, p, bs, bl, bp, ln, col, [], lc, pl, pc⟩ =
            (some (buffer_byte ⟨f, p, bs2, bl2, p - bs2, ln, col, [], lc, pl, pc⟩),
             ⟨f, p, bs2, bl2, p - bs2, ln, col, [], lc, pl, pc⟩) := by
          simp only [streamer_peek, if_neg h1, if_pos h2, hre]
          rw [if_neg hbl2pos]
        rw [h]
        have hnle : ¬ bl2 ≤ p - bs2 := by omega
        have h2' : streamer_peek ⟨f, p, bs2, bl2, p - bs2, ln, col, [], lc, pl, pc⟩ =
            (some (buffer_byte ⟨f, p, bs2, bl2, p - bs2, ln, col, [], lc, pl, pc⟩),
             ⟨f, p, bs2, bl2, p - bs2, ln, col, [], lc, pl, pc⟩) := by
          simp only [streamer_peek, if_neg h1, if_neg hnle]
        rw [h2']
      · have h : streamer_peek ⟨f, p, bs, bl, bp, ln, col, [], lc, pl, pc⟩ =
            (some (buffer_byte ⟨f, p, bs, bl, bp, ln, col, [], lc, pl, pc⟩),
             ⟨f, p, bs, bl, bp, ln, col, [], lc, pl, pc⟩) := by
          simp only [streamer_peek, if_neg h1, if_neg h2]
        rw [h, h]

/-! ## Streamer state lemmas -/

theorem streamer_peek_some_lt {s u : Streamer} {c : Nat} (hpb : s.pushback = [])
    (hp : streamer_peek s = (some c, u)) : s.pos < s.file.length := by
  by_contra hge
  push_neg at hge
  obtain ⟨f, p, bs, bl, bp, ln, col, pb, lc, pl, pc⟩ := s
  simp only at hpb hge
  subst hpb
  simp only [streamer_peek, if_pos hge] at hp
  exact absurd hp (by simp)

theorem streamer_inv_peek {s : Streamer} (h : streamer_inv s) :
    streamer_inv (streamer_peek s).2 := by
  obtain ⟨f, p, bs, bl, bp, ln, col, pb, lc, pl, pc⟩ := s
  obtain ⟨h1, h2, h3, h4, h5, h6⟩ := h
  simp only at h1 h2 h3 h4 h5 h6
  cases pb with
  | cons e rest => exact ⟨h1, h2, h3, h4, h5, h6⟩
  | nil =>
    by_cases hq1 : f.length ≤ p
    · simp only [streamer_peek, if_pos hq1]
      exact ⟨h1, h2, h3, h4, h5, h6⟩
    · by_cases hq2 : bl ≤ bp
      · have hsz : (0:Nat) < STREAMER_BUFFER_SIZE := by
          simp [STREAMER_BUFFER_SIZE]
        have hmod : p % STREAMER_BUFFER_SIZE ≤ p := Nat.mod_le _ _
        have hmodlt : p % STREAMER_BUFFER_SIZE < STREAMER_BUFFER_SIZE :=
          Nat.mod_lt _ hsz
        set bs2 := p - p % STREAMER_BUFFER_SIZE with hbs2
        set bl2 := min STREAMER_BUFFER_SIZE (f.length - bs2) with hbl2
        have hlt : p - bs2 < bl2 := by
          rw [hbl2]
          omega
        have hbl2pos : bl2 ≠ 0 := by omega
        have hre : (refill_buffer ⟨f, p, bs2, bl, bp, ln, col, [], lc, pl, pc⟩ : Streamer) =
            ⟨f, p, bs2, bl2, p - bs2, ln, col, [], lc, pl, pc⟩ := by
          simp only [refill_buffer]
          have hnc : ¬ bl2 < p - bs2 := by omega
          simp only [← hbl2]
          rw [if_neg hnc]
        simp only [streamer_peek, if_neg hq1, if_pos hq2, hre, if_neg hbl2pos]
        refine ⟨by simp; omega, by simp; omega, h3, h4, by simp, by simp⟩
      · simp only [streamer_peek, if_neg hq1, if_neg hq2]
        exact ⟨h1, h2, h3, h4, h5, h6⟩

theorem streamer_inv_next {s : Streamer} (h : streamer_inv s) :
    streamer_inv (streamer_next s).2 := by
  obtain ⟨f, p, bs, bl, bp, ln, col, pb, lc, pl, pc⟩ := s
  obtain ⟨h1, h2, h3, h4, h5, h6⟩ := h
  simp only at h1 h2 h3 h4 h5 h6
  cases pb with
  | cons e rest =>
    refine ⟨?_, ?_, ?_, ?_, ?_, ?_⟩
    · show p + 1 = bs + (bp + 1)
      omega
    · show p + 1 + rest.length ≤ f.length
      simp only [List.length_cons] at h2
      omega
    · exact (h5 e (by simp)).1
    · exact (h5 e (by simp)).2
    · show ∀ x ∈ rest, 1 ≤ x.line ∧ 1 ≤ x.column
      intro x hx
      exact h5 x (List.mem_cons_of_mem _ hx)
    · show rest.length ≤ STREAMER_PUSHBACK_DEPTH
      simp only [List.length_cons] at h6
      omega
  | nil =>
    rcases hp : streamer_peek (⟨f, p, bs, bl, bp, ln, col, [], lc, pl, pc⟩ : Streamer)
      with ⟨r, u⟩
    have huinv : streamer_inv u := by
      have hq := streamer_inv_peek (s := ⟨f, p, bs, bl, bp, ln, col, [], lc, pl, pc⟩)
        ⟨h1, h2, h3, h4, h5, h6⟩
      rw [hp] at hq
      exact hq
    have hupos : u.pos = p := by
      have hq := streamer_peek_pos (⟨f, p, bs, bl, bp, ln, col, [], lc, pl, pc⟩ : Streamer)
      rw [hp] at hq
      exact hq
    have hufile : u.file = f := by
      have hq := streamer_peek_file (⟨f, p, bs, bl, bp, ln, col, [], lc, pl, pc⟩ : Streamer)
      rw [hp] at hq
      exact hq
    have hupb : u.pushback = [] := by
      have hq := streamer_peek_pushback (⟨f, p, bs, bl, bp, ln, col, [], lc, pl, pc⟩ : Streamer)
      rw [hp] at hq
      exact hq
    obtain ⟨u1, u2, u3, u4, u5, u6⟩ := huinv
    simp only [streamer_next, hp]
    cases r with
    | none => exact ⟨u1, u2, u3, u4, u5, u6⟩
    | some c2 =>
      have hlt : p < f.length :=
        streamer_peek_some_lt (s := ⟨f, p, bs, bl, bp, ln, col, [], lc, pl, pc⟩) rfl hp
      dsimp only
      by_cases hc2 : c2 = 10
      · rw [if_pos hc2]
        refine ⟨?_, ?_, ?_, ?_, ?_, ?_⟩
        · show u.pos + 1 = u.buffer_start + (u.buffer_pos + 1)
          omega
        · show u.pos + 1 + u.pushback.length ≤ u.file.length
          rw [hupb, hupos, hufile]
          simp
          omega
        · show 1 ≤ u.line + 1
          omega
        · show (1:Nat) ≤ 1
          omega
        · show ∀ x ∈ u.pushback, 1 ≤ x.line ∧ 1 ≤ x.column
          exact u5
        · show u.pushback.length ≤ STREAMER_PUSHBACK_DEPTH
          exact u6
      · rw [if_neg hc2]
        refine ⟨?_, ?_, ?_, ?_, ?_, ?_⟩
        · show u.pos + 1 = u.buffer_start + (u.buffer_pos + 1)
          omega
        · show u.pos + 1 + u.pushback.length ≤ u.file.length
          rw [hupb, hupos, hufile]
          simp
          omega
        · show 1 ≤ u.line
          exact u3
        · show 1 ≤ u.column + 1
          omega
        · show ∀ x ∈ u.pushback, 1 ≤ x.line ∧ 1 ≤ x.column
          exact u5
        · show u.pushback.length ≤ STREAMER_PUSHBACK_DEPTH
          exact u6


theorem streamer_unget_fields {s : Streamer} (hpos : s.pos ≠ 0)
    (hlen : s.pushback.length < STREAMER_PUSHBACK_DEPTH) :
    (streamer_unget s).1 = true ∧ (streamer_unget s).2.pos = s.pos - 1 ∧
    (streamer_unget s).2.line = s.line ∧ (streamer_unget s).2.column = s.column ∧
    (streamer_unget s).2.pushback.length = s.pushback.length + 1 := by
  obtain ⟨f, p, bs, bl, bp, ln, col, pb, lc, pl, pc⟩ := s
  simp only at hpos hlen
  have hcond : ¬ (p = 0 ∨ STREAMER_PUSHBACK_DEPTH ≤ pb.length) := by
    push_neg
    exact ⟨hpos, hlen⟩
  simp only [streamer_unget, if_neg hcond]
  by_cases hb : 0 < bp
  · rw [if_pos hb]
    exact ⟨by simp, by simp, by simp, by simp, by simp⟩
  · rw [if_neg hb]
    exact ⟨by simp, by simp [refill_buffer], by simp [refill_buffer],
      by simp [refill_buffer], by simp [refill_buffer]⟩

theorem streamer_inv_unget {s : Streamer} (h : streamer_inv s) :
    streamer_inv (streamer_unget s).2 := by
  obtain ⟨f, p, bs, bl, bp, ln, col, pb, lc, pl, pc⟩ := s
  obtain ⟨h1, h2, h3, h4, h5, h6⟩ := h
  simp only at h1 h2 h3 h4 h5 h6
  by_cases hcond : p = 0 ∨ STREAMER_PUSHBACK_DEPTH ≤ pb.length
  · simp only [streamer_unget, if_pos hcond]
    exact ⟨h1, h2, h3, h4, h5, h6⟩
  · push_neg at hcond
    obtain ⟨hp0, hlen⟩ := hcond
    have hcond' : ¬ (p = 0 ∨ STREAMER_PUSHBACK_DEPTH ≤ pb.length) := by
      push_neg
      exact ⟨hp0, hlen⟩
    simp only [streamer_unget, if_neg hcond']
    by_cases hb : 0 < bp
    · rw [if_pos hb]
      refine ⟨?_, ?_, h3, h4, ?_, ?_⟩
      · show p - 1 = bs + (bp - 1)
        omega
      · show p - 1 + (pb.length + 1) ≤ f.length
        omega
      · intro x hx
        simp only [List.mem_cons] at hx
        rcases hx with hx | hx
        · subst hx
          exact ⟨h3, h4⟩
        · exact h5 x hx
      · show pb.length + 1 ≤ STREAMER_PUSHBACK_DEPTH
        omega
    · rw [if_neg hb]
      have hsz : (0:Nat) < STREAMER_BUFFER_SIZE := by
        simp [STREAMER_BUFFER_SIZE]
      have hmod : (p - 1) % STREAMER_BUFFER_SIZE ≤ p - 1 := Nat.mod_le _ _
      refine ⟨?_, ?_, h3, h4, ?_, ?_⟩
      · show p - 1 = p - 1 - (p - 1) % STREAMER_BUFFER_SIZE +
          (p - 1 - (p - 1 - (p - 1) % STREAMER_BUFFER_SIZE))
        omega
      · show p - 1 + (pb.length + 1) ≤ f.length
        omega
      · intro x hx
        simp only [List.mem_cons] at hx
        rcases hx with hx | hx
        · subst hx
          exact ⟨h3, h4⟩
        · exact h5 x hx
      · show pb.length + 1 ≤ STREAMER_PUSHBACK_DEPTH
        omega

theorem streamer_inv_seek_walk (fuel : Nat) :
    ∀ (target : Nat) (s : Streamer), streamer_inv s →
      streamer_inv (streamer_seek_walk fuel target s).2 := by
  induction fuel with
  | zero =>
    intro target s h
    exact h
  | succ n ih =>
    intro target s h
    simp only [streamer_seek_walk]
    by_cases hlt : s.pos < target
    · rw [if_pos hlt]
      rcases hn : streamer_next s with ⟨r, t⟩
      have htinv : streamer_inv t := by
        have hq := streamer_inv_next h
        rw [hn] at hq
        exact hq
      cases r with
      | none => exact htinv
      | some c => exact ih target t htinv
    · rw [if_neg hlt]
      exact h

theorem streamer_inv_open (f : List Nat) : streamer_inv (streamer_open f) := by
  refine ⟨?_, ?_, ?_, ?_, ?_, ?_⟩ <;> simp [streamer_open, refill_buffer, streamer_inv]

theorem streamer_inv_seek {s : Streamer} (off : Nat) (h : streamer_inv s) :
    streamer_inv (streamer_seek s off).2 := by
  simp only [streamer_seek]
  by_cases hoff : s.file.length < off
  · rw [if_pos hoff]
    exact h
  · rw [if_neg hoff]
    apply streamer_inv_seek_walk
    obtain ⟨f, p, bs, bl, bp, ln, col, pb, lc, pl, pc⟩ := s
    refine ⟨?_, ?_, ?_, ?_, ?_, ?_⟩ <;> simp [refill_buffer]


theorem streamer_next_some_state {s t : Streamer} {c : Nat}
    (h : streamer_next s = (some c, t)) :
    t.pos = s.pos + 1 ∧ t.file = s.file ∧
    ((∃ e rest, s.pushback = e :: rest ∧ t.pushback = rest) ∨
      (s.pushback = [] ∧ t.pushback = [])) := by
  obtain ⟨f, p, bs, bl, bp, ln, col, pb, lc, pl, pc⟩ := s
  cases pb with
  | cons e rest =>
    simp only [streamer_next, Prod.mk.injEq] at h
    obtain ⟨hc, ht⟩ := h
    subst ht
    exact ⟨rfl, rfl, Or.inl ⟨e, rest, rfl, rfl⟩⟩
  | nil =>
    rcases hp : streamer_peek (⟨f, p, bs, bl, bp, ln, col, [], lc, pl, pc⟩ : Streamer)
      with ⟨r, u⟩
    have hupos : u.pos = p := by
      have hq := streamer_peek_pos (⟨f, p, bs, bl, bp, ln, col, [], lc, pl, pc⟩ : Streamer)
      rw [hp] at hq
      exact hq
    have hufile : u.file = f := by
      have hq := streamer_peek_file (⟨f, p, bs, bl, bp, ln, col, [], lc, pl, pc⟩ : Streamer)
      rw [hp] at hq
      exact hq
    have hupb : u.pushback = [] := by
      have hq := streamer_peek_pushback (⟨f, p, bs, bl, bp, ln, col, [], lc, pl, pc⟩ :
        Streamer)
      rw [hp] at hq
      exact hq
    simp only [streamer_next, hp] at h
    cases r with
    | none => exact absurd h (by simp)
    | some c2 =>
      dsimp only at h
      by_cases hc2 : c2 = 10
      · rw [if_pos hc2] at h
        simp only [Prod.mk.injEq] at h
        obtain ⟨hc, ht⟩ := h
        subst ht
        refine ⟨?_, ?_, Or.inr ⟨rfl, ?_⟩⟩
        · show u.pos + 1 = p + 1
          omega
        · exact hufile
        · exact hupb
      · rw [if_neg hc2] at h
        simp only [Prod.mk.injEq] at h
        obtain ⟨hc, ht⟩ := h
        subst ht
        refine ⟨?_, ?_, Or.inr ⟨rfl, ?_⟩⟩
        · show u.pos + 1 = p + 1
          omega
        · exact hufile
        · exact hupb


/-- C2, counterexample: on the two-byte file "ab", `streamer_next` followed
by `streamer_unget` restores the absolute offset but leaves the column at
its post-`next` value (2, not 1): `streamer_unget` never rewinds
`line`/`column`; it only snapshots them into the pushback stack. -/
theorem c2_streamer_unget_counterexample :
    ¬ ((streamer_unget (streamer_next (streamer_open [97, 98])).2).2.pos
          = (streamer_open [97, 98]).pos ∧
       (streamer_unget (streamer_next (streamer_open [97, 98])).2).2.line
          = (streamer_open [97, 98]).line ∧
       (streamer_unget (streamer_next (streamer_open [97, 98])).2).2.column
          = (streamer_open [97, 98]).column) := by
  decide

/-- C2 (amended): whenever `streamer_next` consumes a byte from a state
whose pushback stack is within its depth bound, the following
`streamer_unget` succeeds and restores the absolute offset exactly; the
line and the column keep the values they had after the `streamer_next`
(the pre-unget snapshot is pushed so that the next read restores them). -/
theorem c2_streamer_unget_amended (s : Streamer) (c : Nat) (t : Streamer)
    (hcap : s.pushback.length ≤ STREAMER_PUSHBACK_DEPTH)
    (h : streamer_next s = (some c, t)) :
    (streamer_unget t).1 = true ∧
    (streamer_unget t).2.pos = s.pos ∧
    (streamer_unget t).2.line = t.line ∧
    (streamer_unget t).2.column = t.column := by
  obtain ⟨hpos, hfile, hpb⟩ := streamer_next_some_state h
  have hne : t.pos ≠ 0 := by omega
  have hlen : t.pushback.length < STREAMER_PUSHBACK_DEPTH := by
    rcases hpb with ⟨e, rest, he, ht⟩ | ⟨hs, ht⟩
    · rw [ht]
      rw [he] at hcap
      simp only [List.length_cons] at hcap
      omega
    · rw [ht]
      simp [STREAMER_PUSHBACK_DEPTH]
  obtain ⟨w1, w2, w3, w4, w5⟩ := streamer_unget_fields hne hlen
  refine ⟨w1, ?_, w3, w4⟩
  rw [w2]
  omega

/-- Witness for C2 (amended) on the file "ab". -/
theorem c2_streamer_unget_amended_witness :
    (streamer_unget (streamer_next (streamer_open [97, 98])).2).1 = true ∧
    (streamer_unget (streamer_next (streamer_open [97, 98])).2).2.pos
      = (streamer_open [97, 98]).pos ∧
    (streamer_unget (streamer_next (streamer_open [97, 98])).2).2.line
      = (streamer_next (streamer_open [97, 98])).2.line ∧
    (streamer_unget (streamer_next (streamer_open [97, 98])).2).2.column
      = (streamer_next (streamer_open [97, 98])).2.column :=
  c2_streamer_unget_amended (streamer_open [97, 98]) 97
    (streamer_next (streamer_open [97, 98])).2 (by decide) (by decide)

/-- C10: `streamer_peek` never changes the observable position state -
absolute offset, line, column, pushback stack - and a second consecutive
`streamer_peek` returns the same result and the same state (the only
mutation is the internal buffer refill). -/
theorem c10_streamer_peek_frame :
    ∀ s : Streamer,
      (streamer_peek s).2.pos = s.pos ∧
      (streamer_peek s).2.line = s.line ∧
      (streamer_peek s).2.column = s.column ∧
      (streamer_peek s).2.pushback = s.pushback ∧
      streamer_peek ((streamer_peek s).2) = streamer_peek s :=
  fun s => ⟨streamer_peek_pos s, streamer_peek_line s, streamer_peek_column s,
    streamer_peek_pushback s, streamer_peek_idem s⟩


/-- C4, counterexample: on a file that is exactly a UTF-8 BOM,
`lexer_init` consumes the BOM and resets `column` to 0, violating the
claimed `column ≥ 1`. -/
theorem c4_streamer_invariants_counterexample :
    (lexer_init [0xEF, 0xBB, 0xBF]).s.column = 0 ∧
    ¬ (1 ≤ (lexer_init [0xEF, 0xBB, 0xBF]).s.column) := by
  decide

/-- C4 (amended): the streamer invariant - `pos = buffer_start +
buffer_pos` (even with pushback pending), `pos` plus the pushback depth
bounded by the file length, `line ≥ 1`, `column ≥ 1` - holds after
`streamer_open` and is preserved by `streamer_peek`, `streamer_next`,
`streamer_unget` and `streamer_seek` (`streamer_get_blob` is a pure
observation); `lexer_init` establishes it when the file does not start
with a UTF-8 BOM, while on the BOM path every part but the column bound
still holds and the column is 0.  The last clause discharges the claim's
four stated properties from the invariant. -/
theorem c4_streamer_invariants_amended :
    (∀ f, streamer_inv (streamer_open f)) ∧
    (∀ s, streamer_inv s → streamer_inv (streamer_peek s).2) ∧
    (∀ s, streamer_inv s → streamer_inv (streamer_next s).2) ∧
    (∀ s, streamer_inv s → streamer_inv (streamer_unget s).2) ∧
    (∀ s off, streamer_inv s → streamer_inv (streamer_seek s off).2) ∧
    (∀ f, bom_at_start (streamer_open f) = false → streamer_inv (lexer_init f).s) ∧
    (∀ f, bom_at_start (streamer_open f) = true →
        (lexer_init f).s.column = 0 ∧
        (lexer_init f).s.pos = (lexer_init f).s.buffer_start + (lexer_init f).s.buffer_pos ∧
        (lexer_init f).s.pos ≤ (lexer_init f).s.file.length ∧
        1 ≤ (lexer_init f).s.line) ∧
    (∀ s, streamer_inv s →
        (s.pushback = [] → s.pos = s.buffer_start + s.buffer_pos) ∧
        s.pos ≤ s.file.length ∧ 1 ≤ s.line ∧ 1 ≤ s.column) := by
  refine ⟨streamer_inv_open, fun s h => streamer_inv_peek h,
    fun s h => streamer_inv_next h, fun s h => streamer_inv_unget h,
    fun s off h => streamer_inv_seek off h, ?_, ?_, ?_⟩
  · intro f hb
    simp only [lexer_init, hb, Bool.false_eq_true, if_false]
    exact streamer_inv_open f
  · intro f hb
    simp only [lexer_init, hb, if_true]
    have inv3 : streamer_inv
        (streamer_next (streamer_next (streamer_next (streamer_open f)).2).2).2 :=
      streamer_inv_next (streamer_inv_next (streamer_inv_next (streamer_inv_open f)))
    obtain ⟨i1, i2, i3, i4, i5, i6⟩ := inv3
    exact ⟨trivial, i1, by omega, i3⟩
  · intro s h
    obtain ⟨i1, i2, i3, i4, i5, i6⟩ := h
    exact ⟨fun _ => i1, by omega, i3, i4⟩

/-- Witness for C4 (amended) at concrete files ("hi" and a BOM-only file). -/
theorem c4_streamer_invariants_witness :
    streamer_inv (streamer_peek (streamer_open [104, 105])).2 ∧
    streamer_inv (streamer_unget (streamer_next (streamer_open [104, 105])).2).2 ∧
    streamer_inv (lexer_init [104, 105]).s ∧
    (lexer_init [0xEF, 0xBB, 0xBF]).s.column = 0 := by
  refine ⟨?_, ?_, ?_, ?_⟩
  · exact c4_streamer_invariants_amended.2.1 (streamer_open [104, 105]) (by decide)
  · exact c4_streamer_invariants_amended.2.2.2.1
      (streamer_next (streamer_open [104, 105])).2 (by decide)
  · exact c4_streamer_invariants_amended.2.2.2.2.2.1 [104, 105] (by decide)
  · exact (c4_streamer_invariants_amended.2.2.2.2.2.2.1 [0xEF, 0xBB, 0xBF] (by decide)).1


/-! ## Claim C1: string-literal promotion -/

/-- C1, counterexample: on a target whose wchar_t is 16 bits, the lexer's
inline concatenation (`lit_promote` in lexer.c, used by
`read_string_literal`) promotes a UTF-32 literal concatenated with a wide
literal to the wide kind, not to UTF-32 as the claim requires for both
concatenation paths. -/
theorem c1_lit_promote_counterexample :
    (lit_promote_inline .LIT_UTF32 .LIT_WIDE 16).1 = .LIT_WIDE ∧
    lit_promote_claim .LIT_UTF32 .LIT_WIDE 16 = .LIT_UTF32 ∧
    (LitKind.LIT_WIDE ≠ LitKind.LIT_UTF32) := by
  decide

/-- C1 (amended): for every target wchar width in {0, 8, 16, 32} and every
pair of input kinds, (i) the lexer's inline `lit_promote` returns exactly
the input kind of highest rank, with no widening override; (ii) the
string-concatenation pass's `lit_promote` never narrows: its result's
code-unit width covers both inputs; (iii) when the ranked kind already
covers both input widths the pass returns it unchanged; and (iv) when it
does not, the pass widens to UTF-32 if 32-bit units are needed and to
UTF-16 if only 16-bit units are needed. -/
theorem c1_lit_promote_amended :
    ∀ w ∈ ([0, 8, 16, 32] : List Nat), ∀ a b : LitKind,
      (lit_promote_inline a b w).1 = lit_ranked a b w ∧
      (lit_info_of (lit_promote_pass a b w) w).unit_bits ≥ lit_need_bits a b w ∧
      ((lit_info_of (lit_ranked a b w) w).unit_bits ≥ lit_need_bits a b w →
        lit_promote_pass a b w = lit_ranked a b w) ∧
      ((lit_info_of (lit_ranked a b w) w).unit_bits < lit_need_bits a b w →
        lit_promote_pass a b w =
          (if lit_need_bits a b w ≥ 32 then .LIT_UTF32 else .LIT_UTF16)) := by
  decide

/-- Witness for C1 (amended), at the counterexample's own input: a 16-bit
wchar target, UTF-32 and wide inputs. -/
theorem c1_lit_promote_amended_witness :
    (lit_promote_inline .LIT_UTF32 .LIT_WIDE 16).1 = lit_ranked .LIT_UTF32 .LIT_WIDE 16 ∧
    lit_promote_pass .LIT_UTF32 .LIT_WIDE 16 = .LIT_UTF32 := by
  have h := c1_lit_promote_amended 16 (by decide) .LIT_UTF32 .LIT_WIDE
  exact ⟨h.1, (h.2.2.2 (by decide)).trans (by decide)⟩

/-! ## Claim C7: context-sensitive keyword classification -/

/-- C7: when a spelling has both a directive (`is_pp`) and a non-directive
entry in `KW_TABLE`, `classify_ident` returns the first directive entry's
kind under `in_directive = true` and the first non-directive entry's kind
under `in_directive = false`; a spelling whose table entries are all
directive entries classifies as a plain identifier outside directives. -/
theorem c7_classify_ident :
    (∀ (s : String) (e₁ e₂ : KwEntry),
        (kw_matches s).find? (fun e => e.is_pp) = some e₁ →
        (kw_matches s).find? (fun e => !e.is_pp) = some e₂ →
        classify_ident s true = e₁.kind ∧ classify_ident s false = e₂.kind) ∧
    (∀ s : String, kw_matches s ≠ [] → (∀ e ∈ kw_matches s, e.is_pp) →
        classify_ident s false = .identifier) := by
  constructor
  · intro s e₁ e₂ h₁ h₂
    have hpp₂ : e₂.is_pp = false := by
      have := List.find?_some h₂
      simpa using this
    constructor
    · have hpred : (fun (e : KwEntry) => e.is_pp == true) = (fun e => e.is_pp) := by
        funext e
        cases e.is_pp <;> rfl
      unfold classify_ident kw_lookup_ctx
      rw [hpred, h₁]
      simp
    · have hpred : (fun (e : KwEntry) => e.is_pp == false) = (fun e => !e.is_pp) := by
        funext e
        cases e.is_pp <;> rfl
      unfold classify_ident kw_lookup_ctx
      rw [hpred, h₂]
      simp [hpp₂]
  · intro s hne hall
    have hf : (kw_matches s).find? (fun e => e.is_pp == false) = none := by
      rw [List.find?_eq_none]
      intro e he
      simp [hall e he]
    obtain ⟨a, t, hat⟩ := List.exists_cons_of_ne_nil hne
    have ha : a ∈ kw_matches s := by rw [hat]; exact List.mem_cons_self a t
    unfold classify_ident kw_lookup_ctx
    rw [hf, hat]
    simp [hall a ha]

/-- Witness for C7: the spelling "if" (both entries) and the spelling
"include" (directive-only). -/
theorem c7_classify_ident_witness :
    classify_ident "if" true = TokenKind.pp_if ∧
    classify_ident "if" false = TokenKind.kw_if ∧
    classify_ident "include" false = TokenKind.identifier := by
  refine ⟨?_, ?_, ?_⟩
  · exact (c7_classify_ident.1 "if" ⟨"if", .pp_if, true, 0, false, 0, 0⟩
      ⟨"if", .kw_if, false, 0, false, 0, 0⟩ (by decide) (by decide)).1
  · exact (c7_classify_ident.1 "if" ⟨"if", .pp_if, true, 0, false, 0, 0⟩
      ⟨"if", .kw_if, false, 0, false, 0, 0⟩ (by decide) (by decide)).2
  · exact c7_classify_ident.2 "include" (by decide) (by decide)


/-! ## Claim C5: integer suffixes

Helper lemmas about `valid_int_suffix` and the suffix-collection loop,
then the claim theorems.
-/

theorem valid_int_suffix_core_iff (s : List Nat)
    (h : ∀ c ∈ s, c = 117 ∨ c = 85 ∨ c = 108 ∨ c = 76) :
    ∀ u l : Nat, (valid_int_suffix_core s u l = true ↔
      u + s.countP (fun c => c = 117 || c = 85) ≤ 1 ∧
      l + s.countP (fun c => c = 108 || c = 76) ≤ 2) := by
  induction s with
  | nil =>
    intro u l
    simp [valid_int_suffix_core]
  | cons c t ih =>
    intro u l
    have hc := h c (List.mem_cons_self c t)
    have ht : ∀ x ∈ t, x = 117 ∨ x = 85 ∨ x = 108 ∨ x = 76 :=
      fun x hx => h x (List.mem_cons_of_mem c hx)
    rcases hc with hc | hc | hc | hc <;> subst hc <;>
      simp only [valid_int_suffix_core, List.countP_cons, if_pos, if_neg] <;>
      (first
        | (rw [if_neg (by omega), if_pos (by simp)]
           rw [ih ht (u + 1) l]
           simp
           omega)
        | (rw [if_neg (by omega), if_neg (by simp), if_pos (by simp)]
           rw [ih ht u (l + 1)]
           simp
           omega))

theorem scan_int_suffix_spec (l : List Nat) :
    (scan_int_suffix l).1 = l.takeWhile is_int_suffix_char ∧
    (scan_int_suffix l).2 = l.dropWhile is_int_suffix_char := by
  induction l with
  | nil => simp [scan_int_suffix]
  | cons c t ih =>
    by_cases hc : is_int_suffix_char c
    · simp [scan_int_suffix, hc, List.takeWhile_cons, List.dropWhile_cons, ih.1, ih.2]
    · simp [scan_int_suffix, hc, List.takeWhile_cons, List.dropWhile_cons]

set_option maxHeartbeats 2000000 in
theorem read_number_suffix_int_error (buf : List Nat) (fl : NumFlags)
    (l : List Nat) (hf : fl.is_float = false) :
    (((read_number_suffix buf fl l).tok.kind = .error ∧
        (read_number_suffix buf fl l).tok.err = "bad integer suffix") ↔
      valid_int_suffix (scan_int_suffix l).1 = false) := by
  simp only [read_number_suffix, hf, Bool.false_eq_true, if_false]
  simp only [read_number_finish]
  split_ifs with h1 h2 h3 h4 h5 h6 <;>
    simp_all [num_error]

set_option maxHeartbeats 2000000 in
theorem read_number_suffix_int_rest (buf : List Nat) (fl : NumFlags)
    (l : List Nat) (hf : fl.is_float = false) :
    (read_number_suffix buf fl l).rest =
      (match (scan_int_suffix l).2 with
        | c :: t => if is_imag_char c then t else c :: t
        | [] => []) := by
  simp only [read_number_suffix, hf, Bool.false_eq_true, if_false]
  simp only [read_number_finish]
  split_ifs <;> rfl

/-- C5, counterexample: on the input "1a" the letter `a` is NOT part of the
suffix-collection loop (`strchr("uUlL", c)` rejects it, lexer.c 1239-1242),
so `read_number` returns a plain INTEGER_CONSTANT and leaves `a` unconsumed
in the stream - no error is produced, contradicting the claim that "any
other letter immediately following the constant results in an error". -/
theorem c5_int_suffix_counterexample :
    (read_number [49, 97]).tok.kind = .integer_constant ∧
    ¬ ((read_number [49, 97]).tok.kind = .error) ∧
    (read_number [49, 97]).rest = [97] := by
  decide

/-- C5 (amended): (i) a suffix made of `u`/`U`/`l`/`L` only is valid iff it
has at most one `u`/`U` and at most two `l`/`L` (`valid_int_suffix`,
lexer.c 961-972); (ii) on the integer path an ERROR token with message
"bad integer suffix" is produced exactly when the collected suffix is
invalid, and the rest of the stream is what follows the collected suffix
(plus an imaginary-suffix byte, lexer.c 1265-1269); (iii) the collection
loop takes exactly the maximal prefix of `uUlL`-or-NUL bytes - any other
letter is left in the stream as a separate token, not turned into an
error. -/
theorem c5_int_suffix_amended :
    (∀ s : List Nat, (∀ c ∈ s, c = 117 ∨ c = 85 ∨ c = 108 ∨ c = 76) →
      (valid_int_suffix s = true ↔
        s.countP (fun c => c = 117 || c = 85) ≤ 1 ∧
        s.countP (fun c => c = 108 || c = 76) ≤ 2)) ∧
    (∀ (buf : List Nat) (fl : NumFlags) (l : List Nat), fl.is_float = false →
      ((((read_number_suffix buf fl l).tok.kind = .error ∧
          (read_number_suffix buf fl l).tok.err = "bad integer suffix") ↔
        valid_int_suffix (scan_int_suffix l).1 = false) ∧
      (read_number_suffix buf fl l).rest =
        (match (scan_int_suffix l).2 with
          | c :: t => if is_imag_char c then t else c :: t
          | [] => []))) ∧
    (∀ l : List Nat, (scan_int_suffix l).1 = l.takeWhile is_int_suffix_char ∧
      (scan_int_suffix l).2 = l.dropWhile is_int_suffix_char) := by
  refine ⟨?_, ?_, scan_int_suffix_spec⟩
  · intro s h
    have := valid_int_suffix_core_iff s h 0 0
    simpa [valid_int_suffix] using this
  · intro buf fl l hf
    exact ⟨read_number_suffix_int_error buf fl l hf,
      read_number_suffix_int_rest buf fl l hf⟩

/-- Witness for C5 (amended): the suffix "ull" and the stream "lll" + "a"
after the digits of "1". -/
theorem c5_int_suffix_amended_witness :
    (valid_int_suffix [117, 108, 108] = true ↔
      ([117, 108, 108] : List Nat).countP (fun c => c = 117 || c = 85) ≤ 1 ∧
      ([117, 108, 108] : List Nat).countP (fun c => c = 108 || c = 76) ≤ 2) ∧
    ((((read_number_suffix [49] ⟨false, false, false, false, false, false, false, false⟩
          [108, 108, 108, 97]).tok.kind = .error ∧
        (read_number_suffix [49] ⟨false, false, false, false, false, false, false, false⟩
          [108, 108, 108, 97]).tok.err = "bad integer suffix") ↔
      valid_int_suffix (scan_int_suffix [108, 108, 108, 97]).1 = false) ∧
    (read_number_suffix [49] ⟨false, false, false, false, false, false, false, false⟩
        [108, 108, 108, 97]).rest =
      (match (scan_int_suffix [108, 108, 108, 97]).2 with
        | c :: t => if is_imag_char c then t else c :: t
        | [] => [])) := by
  refine ⟨c5_int_suffix_amended.1 [117, 108, 108] (by decide),
    c5_int_suffix_amended.2.1 [49] ⟨false, false, false, false, false, false, false, false⟩
      [108, 108, 108, 97] rfl⟩

/-! ## Claim C8: hex floating constants

Helper lemmas tracing `TOKEN_FLOAT_HEX` back through the stages of
`read_number`, then the claim theorem.
-/

theorem scan_digits_seps_all (dig : Nat → Bool) :
    ∀ l : List Nat, ∀ c ∈ (scan_digits_seps dig l).1, dig c = true := by
  intro l
  induction l with
  | nil => simp [scan_digits_seps]
  | cons c t ih =>
    intro x hx
    by_cases hc : dig c
    · simp only [scan_digits_seps, if_pos hc] at hx
      rcases List.mem_cons.mp hx with hx | hx
      · subst hx
        exact hc
      · exact ih x hx
    · by_cases hsep : c = 39 || c = 95
      · simp only [scan_digits_seps, if_neg hc, if_pos hsep] at hx
        exact ih x hx
      · simp only [scan_digits_seps, if_neg hc, if_neg hsep] at hx
        simp at hx

set_option maxHeartbeats 2000000 in
theorem read_number_finish_hex {buf : List Nat} {fl : NumFlags} {su : List Nat}
    {fs : FloatSuffix} {l : List Nat}
    (h : (read_number_finish buf fl su fs l).tok.style = .TOKEN_FLOAT_HEX) :
    fl.is_hex_float = true ∧ fl.saw_p = true ∧ fl.saw_exp_digit = true ∧
    fl.saw_hex_sig_digit = true ∧ (read_number_finish buf fl su fs l).lexeme = buf := by
  revert h
  simp only [read_number_finish]
  split_ifs with h1 h2 h3 h4 h5 h6 <;> intro h <;>
    first
      | (clear h
         refine ⟨?_, ?_, ?_, ?_, rfl⟩ <;> simp_all
         done)
      | (simp [num_error] at h
         done)

set_option maxHeartbeats 1000000 in
theorem read_number_suffix_hex {buf : List Nat} {fl : NumFlags} {l : List Nat}
    (h : (read_number_suffix buf fl l).tok.style = .TOKEN_FLOAT_HEX) :
    fl.is_hex_float = true ∧ fl.saw_p = true ∧ fl.saw_exp_digit = true ∧
    fl.saw_hex_sig_digit = true ∧ (read_number_suffix buf fl l).lexeme = buf := by
  revert h
  simp only [read_number_suffix]
  split_ifs with hf hok <;> intro h
  · exact read_number_finish_hex h
  · exact absurd h (by simp [num_error])
  · exact read_number_finish_hex h

set_option maxHeartbeats 1000000 in
theorem read_number_after_scan_hex {buf : List Nat} {f hf ub sh sp se : Bool}
    {l : List Nat}
    (h : (read_number_after_scan buf f hf ub sh sp se l).tok.style = .TOKEN_FLOAT_HEX) :
    hf = true ∧ sp = true ∧ se = true ∧ sh = true ∧
    (read_number_after_scan buf f hf ub sh sp se l).lexeme = buf := by
  revert h
  simp only [read_number_after_scan]
  split
  · split_ifs with hhf <;> intro h
    · exact read_number_suffix_hex h
    · exact absurd (read_number_suffix_hex h).1 (by simp)
  · split_ifs with hhf <;> intro h
    · exact read_number_suffix_hex h
    · exact absurd (read_number_suffix_hex h).1 (by simp)
  · intro h
    exact read_number_suffix_hex h

set_option maxHeartbeats 1000000 in
theorem read_number_hex_exp_hex {buf : List Nat} {pc : Nat} {sh0 : Bool} {l : List Nat}
    (h : (read_number_hex_exp buf pc sh0 l).tok.style = .TOKEN_FLOAT_HEX) :
    ∃ sgn ds, (read_number_hex_exp buf pc sh0 l).lexeme = buf ++ pc :: (sgn ++ ds) ∧
      (sgn = [] ∨ sgn = [43] ∨ sgn = [45]) ∧ ds ≠ [] ∧
      (∀ c ∈ ds, is_digit c = true) ∧ sh0 = true := by
  revert h
  simp only [read_number_hex_exp]
  split
  next t =>
    intro h
    have ha := read_number_after_scan_hex h
    refine ⟨[43], (scan_digits_seps is_digit t).1, ?_, by simp, ?_,
      scan_digits_seps_all is_digit t, ha.2.2.2.1⟩
    · simpa using ha.2.2.2.2
    · have h3 := ha.2.2.1
      intro hemp
      rw [hemp] at h3
      simp at h3
  next t =>
    intro h
    have ha := read_number_after_scan_hex h
    refine ⟨[45], (scan_digits_seps is_digit t).1, ?_, by simp, ?_,
      scan_digits_seps_all is_digit t, ha.2.2.2.1⟩
    · simpa using ha.2.2.2.2
    · have h3 := ha.2.2.1
      intro hemp
      rw [hemp] at h3
      simp at h3
  next t h1 h2 =>
    intro h
    have ha := read_number_after_scan_hex h
    refine ⟨[], (scan_digits_seps is_digit l).1, ?_, by simp, ?_,
      scan_digits_seps_all is_digit l, ha.2.2.2.1⟩
    · simpa using ha.2.2.2.2
    · have h3 := ha.2.2.1
      intro hemp
      rw [hemp] at h3
      simp at h3

set_option maxHeartbeats 2000000 in
theorem read_number_hex_hex {b0 : List Nat} {l : List Nat}
    (h : (read_number_hex b0 l).tok.style = .TOKEN_FLOAT_HEX) :
    ∃ mant ec sgn ds,
      (read_number_hex b0 l).lexeme = b0 ++ mant ++ ec :: (sgn ++ ds) ∧
      (ec = 112 ∨ ec = 80) ∧
      (∀ c ∈ mant, is_xdigit c = true ∨ c = 46) ∧
      (∃ c ∈ mant, is_xdigit c = true) ∧
      (sgn = [] ∨ sgn = [43] ∨ sgn = [45]) ∧
      ds ≠ [] ∧ (∀ c ∈ ds, is_digit c = true) := by
  revert h
  simp only [read_number_hex]
  split_ifs with hfr
  · split
    next t =>
      intro h
      obtain ⟨sgn, ds, hlex, hsgn, hne, hds, hsaw⟩ := read_number_hex_exp_hex h
      refine ⟨(scan_digits_seps is_xdigit l).1 ++
          46 :: (scan_digits_seps is_xdigit (scan_digits_seps is_xdigit l).2.tail).1,
        112, sgn, ds, ?_, Or.inl rfl, ?_, ?_, hsgn, hne, hds⟩
      · simpa using hlex
      · intro c hc
        rcases List.mem_append.mp hc with hc | hc
        · exact Or.inl (scan_digits_seps_all is_xdigit l c hc)
        · rcases List.mem_cons.mp hc with hc | hc
          · exact Or.inr hc
          · exact Or.inl (scan_digits_seps_all is_xdigit _ c hc)
      · by_cases hne1 : (scan_digits_seps is_xdigit l).1 = []
        · have hne2 :
              (scan_digits_seps is_xdigit (scan_digits_seps is_xdigit l).2.tail).1 ≠ [] := by
            simp only [hne1] at hsaw
            simpa using hsaw
          obtain ⟨x, hx⟩ := List.exists_mem_of_ne_nil _ hne2
          exact ⟨x, by simp [hx], scan_digits_seps_all is_xdigit _ x hx⟩
        · obtain ⟨x, hx⟩ := List.exists_mem_of_ne_nil _ hne1
          exact ⟨x, by simp [hx], scan_digits_seps_all is_xdigit l x hx⟩
    next t =>
      intro h
      obtain ⟨sgn, ds, hlex, hsgn, hne, hds, hsaw⟩ := read_number_hex_exp_hex h
      refine ⟨(scan_digits_seps is_xdigit l).1 ++
          46 :: (scan_digits_seps is_xdigit (scan_digits_seps is_xdigit l).2.tail).1,
        80, sgn, ds, ?_, Or.inr rfl, ?_, ?_, hsgn, hne, hds⟩
      · simpa using hlex
      · intro c hc
        rcases List.mem_append.mp hc with hc | hc
        · exact Or.inl (scan_digits_seps_all is_xdigit l c hc)
        · rcases List.mem_cons.mp hc with hc | hc
          · exact Or.inr hc
          · exact Or.inl (scan_digits_seps_all is_xdigit _ c hc)
      · by_cases hne1 : (scan_digits_seps is_xdigit l).1 = []
        · have hne2 :
              (scan_digits_seps is_xdigit (scan_digits_seps is_xdigit l).2.tail).1 ≠ [] := by
            simp only [hne1] at hsaw
            simpa using hsaw
          obtain ⟨x, hx⟩ := List.exists_mem_of_ne_nil _ hne2
          exact ⟨x, by simp [hx], scan_digits_seps_all is_xdigit _ x hx⟩
        · obtain ⟨x, hx⟩ := List.exists_mem_of_ne_nil _ hne1
          exact ⟨x, by simp [hx], scan_digits_seps_all is_xdigit l x hx⟩
    next t h1 h2 =>
      intro h
      exact absurd (read_number_after_scan_hex h).2.1 (by simp)
  · split
    next t =>
      intro h
      obtain ⟨sgn, ds, hlex, hsgn, hne, hds, hsaw⟩ := read_number_hex_exp_hex h
      refine ⟨(scan_digits_seps is_xdigit l).1, 112, sgn, ds, ?_, Or.inl rfl, ?_, ?_,
        hsgn, hne, hds⟩
      · simpa using hlex
      · intro c hc
        exact Or.inl (scan_digits_seps_all is_xdigit l c hc)
      · have hne1 : (scan_digits_seps is_xdigit l).1 ≠ [] := by simpa using hsaw
        obtain ⟨x, hx⟩ := List.exists_mem_of_ne_nil _ hne1
        exact ⟨x, hx, scan_digits_seps_all is_xdigit l x hx⟩
    next t =>
      intro h
      obtain ⟨sgn, ds, hlex, hsgn, hne, hds, hsaw⟩ := read_number_hex_exp_hex h
      refine ⟨(scan_digits_seps is_xdigit l).1, 80, sgn, ds, ?_, Or.inr rfl, ?_, ?_,
        hsgn, hne, hds⟩
      · simpa using hlex
      · intro c hc
        exact Or.inl (scan_digits_seps_all is_xdigit l c hc)
      · have hne1 : (scan_digits_seps is_xdigit l).1 ≠ [] := by simpa using hsaw
        obtain ⟨x, hx⟩ := List.exists_mem_of_ne_nil _ hne1
        exact ⟨x, hx, scan_digits_seps_all is_xdigit l x hx⟩
    next t h1 h2 =>
      intro h
      exact absurd (read_number_after_scan_hex h).1 (by simp)

set_option maxHeartbeats 1000000 in
/-- C8: every `read_number` result that is a FLOATING_CONSTANT with style
`TOKEN_FLOAT_HEX` has a lexeme of the shape `0x`/`0X`, then a mantissa of
hex digits and at most one dot with at least one significant hex digit,
then exactly one `p`/`P`, an optional sign and at least one decimal
exponent digit (the mantissa bytes are hex digits or the dot, so the
`p`/`P` occurs exactly once); and the three violating inputs "0x.p3" (no
significant digit), "0x1p" (no exponent digit) and "0x1.5" (no `p`)
produce an ERROR token instead. -/
theorem c8_hex_float (l : List Nat)
    (hk : (read_number l).tok.kind = .floating_constant)
    (hs : (read_number l).tok.style = .TOKEN_FLOAT_HEX) :
    (∃ xc mant ec sgn ds,
      (read_number l).lexeme = 48 :: xc :: (mant ++ ec :: (sgn ++ ds)) ∧
      (xc = 120 ∨ xc = 88) ∧ (ec = 112 ∨ ec = 80) ∧
      (∀ c ∈ mant, is_xdigit c = true ∨ c = 46) ∧
      (∃ c ∈ mant, is_xdigit c = true) ∧
      (sgn = [] ∨ sgn = [43] ∨ sgn = [45]) ∧
      ds ≠ [] ∧ (∀ c ∈ ds, is_digit c = true)) ∧
    (read_number [48, 120, 46, 112, 51]).tok.kind = .error ∧
    (read_number [48, 120, 49, 112]).tok.kind = .error ∧
    (read_number [48, 120, 49, 46, 53]).tok.kind = .error := by
  clear hk
  refine ⟨?_, by decide, by decide, by decide⟩
  revert hs
  unfold read_number
  split <;> intro hs
  · obtain ⟨mant, ec, sgn, ds, hlex, hec, hmant, hex, hsgn, hne, hds⟩ :=
      read_number_hex_hex hs
    exact ⟨120, mant, ec, sgn, ds, by simpa using hlex, Or.inl rfl, hec, hmant,
      hex, hsgn, hne, hds⟩
  · obtain ⟨mant, ec, sgn, ds, hlex, hec, hmant, hex, hsgn, hne, hds⟩ :=
      read_number_hex_hex hs
    exact ⟨88, mant, ec, sgn, ds, by simpa using hlex, Or.inr rfl, hec, hmant,
      hex, hsgn, hne, hds⟩
  · simp only [read_number_bin] at hs
    exact absurd (read_number_after_scan_hex hs).1 (by simp)
  · simp only [read_number_bin] at hs
    exact absurd (read_number_after_scan_hex hs).1 (by simp)
  · simp only [read_number_dec] at hs
    split at hs
    · exact absurd (read_number_after_scan_hex hs).1 (by simp)
    · exact absurd (read_number_after_scan_hex hs).1 (by simp)
  · simp only [read_number_dot] at hs
    exact absurd (read_number_after_scan_hex hs).1 (by simp)
  · simp only [read_number_dec] at hs
    split at hs
    · exact absurd (read_number_after_scan_hex hs).1 (by simp)
    · exact absurd (read_number_after_scan_hex hs).1 (by simp)

/-- Witness for C8 at the input "0x1.fp3". -/
theorem c8_hex_float_witness :
    (read_number [48, 120, 49, 46, 102, 112, 51]).tok.kind = .floating_constant ∧
    (read_number [48, 120, 49, 46, 102, 112, 51]).tok.style = .TOKEN_FLOAT_HEX ∧
    ((∃ xc mant ec sgn ds,
      (read_number [48, 120, 49, 46, 102, 112, 51]).lexeme =
        48 :: xc :: (mant ++ ec :: (sgn ++ ds)) ∧
      (xc = 120 ∨ xc = 88) ∧ (ec = 112 ∨ ec = 80) ∧
      (∀ c ∈ mant, is_xdigit c = true ∨ c = 46) ∧
      (∃ c ∈ mant, is_xdigit c = true) ∧
      (sgn = [] ∨ sgn = [43] ∨ sgn = [45]) ∧
      ds ≠ [] ∧ (∀ c ∈ ds, is_digit c = true)) ∧
    (read_number [48, 120, 46, 112, 51]).tok.kind = .error ∧
    (read_number [48, 120, 49, 112]).tok.kind = .error ∧
    (read_number [48, 120, 49, 46, 53]).tok.kind = .error) :=
  ⟨by decide, by decide, c8_hex_float _ (by decide) (by decide)⟩



/-! ## Claims C3 and C6: header-name dispatch and the error cap -/

theorem rhn_capture_spec (pre rest : List Nat)
    (h : ∀ c ∈ pre, c ≠ 62 ∧ c ≠ 10) :
    rhn_capture (pre ++ 62 :: rest) = (pre, 62 :: rest) := by
  induction pre with
  | nil => simp [rhn_capture]
  | cons c t ih =>
    have hc := h c (List.mem_cons_self c t)
    have ht : ∀ x ∈ t, x ≠ 62 ∧ x ≠ 10 :=
      fun x hx => h x (List.mem_cons_of_mem c hx)
    simp [rhn_capture, hc.1, hc.2, ih ht]

/-- C3, counterexample: `#import` arms `expect_header_name` with kind
`YECC_PP_IMPORT` (pp_note_after_keyword, lexer.c 726-729), but the `<`
dispatch in `lexer_next` (lexer.c 2159-2163) tests only `YECC_PP_INCLUDE`
and `YECC_PP_INCLUDE_NEXT`, so a following `<` does NOT start a
header-name token after `#import` while it does after `#include`. -/
theorem c3_header_name_counterexample :
    (pp_note_after_keyword ⟨streamer_open [], false, true, .YECC_PP_NONE, false⟩
        .pp_import).expect_header_name = true ∧
    (pp_note_after_keyword ⟨streamer_open [], false, true, .YECC_PP_NONE, false⟩
        .pp_import).pp_kind = .YECC_PP_IMPORT ∧
    header_name_dispatch true true .YECC_PP_IMPORT (some 60) = .fallthrough ∧
    header_name_dispatch true true .YECC_PP_INCLUDE (some 60) = .angle := by
  decide

/-- C3 (amended): in a directive every include-like keyword (`#include`,
`#include_next`, `#import`) arms `expect_header_name`; a following `<`
starts a `<...>` header name only for `#include` and `#include_next`
(the quoted form is entered for all four header-name directives,
`#embed` included); and the `<...>` reader captures exactly the bytes up
to the next `>`, consuming the `>`. -/
theorem c3_header_name_amended :
    (∀ (lx : Lexer) (k : TokenKind), lx.in_directive = true →
      is_include_like k = true →
      (pp_note_after_keyword lx k).expect_header_name = true) ∧
    (∀ pk : PpKind, (header_name_dispatch true true pk (some 60) = .angle ↔
      (pk = .YECC_PP_INCLUDE ∨ pk = .YECC_PP_INCLUDE_NEXT))) ∧
    (∀ pk : PpKind, (header_name_dispatch true true pk (some 34) = .quoted ↔
      (pk = .YECC_PP_INCLUDE ∨ pk = .YECC_PP_INCLUDE_NEXT ∨
        pk = .YECC_PP_IMPORT ∨ pk = .YECC_PP_EMBED))) ∧
    (∀ (pre rest : List Nat), (∀ c ∈ pre, c ≠ 62 ∧ c ≠ 10) →
      read_header_name_bytes (60 :: (pre ++ 62 :: rest)) = (some pre, rest)) := by
  refine ⟨?_, ?_, ?_, ?_⟩
  · intro lx k hd hk
    simp [pp_note_after_keyword, hd, hk]
  · intro pk
    cases pk <;> decide
  · intro pk
    cases pk <;> decide
  · intro pre rest h
    simp [read_header_name_bytes, rhn_capture_spec pre rest h]

/-- Witness for C3 (amended): `#import` arming on a concrete lexer state,
and the capture of "hi" from the concrete stream "<hi>!". -/
theorem c3_header_name_amended_witness :
    (pp_note_after_keyword ⟨streamer_open [], false, true, .YECC_PP_NONE, false⟩
        .pp_import).expect_header_name = true ∧
    read_header_name_bytes (60 :: ([104, 105] ++ 62 :: [33])) = (some [104, 105], [33]) :=
  ⟨c3_header_name_amended.1 _ _ rfl (by decide),
   c3_header_name_amended.2.2.2 [104, 105] [33] (by decide)⟩

/-- C6: the `max_errors` cap is never enforced - `diag_reportv` (diag.c
137-149) renders every diagnostic unconditionally: it receives no
compilation context and neither it nor any caller counts errors or
consults `max_errors`; 21 error-level reports on a fresh stderr render 21
errors (beyond the default cap of 20), and in general the rendered error
count grows by exactly the number of error-level reports. -/
theorem c6_max_errors_not_enforced :
    diag_error_count (run_diags (List.replicate 21 .DIAG_LEVEL_ERROR) ⟨[]⟩) = 21 ∧
    ∀ (levels : List DiagLevel) (st : DiagState),
      diag_error_count (run_diags levels st) =
        diag_error_count st + levels.count .DIAG_LEVEL_ERROR := by
  constructor
  · decide
  · intro levels
    induction levels with
    | nil =>
      intro st
      simp [run_diags, diag_error_count]
    | cons l ls ih =>
      intro st
      have h1 : run_diags (l :: ls) st = run_diags ls (diag_reportv l st) := rfl
      rw [h1, ih (diag_reportv l st)]
      simp only [diag_error_count, diag_reportv, List.count_append, List.count_cons]
      cases l <;> simp <;> omega



/-! ## Claim C9: EOF idempotence -/

theorem blob_at_eof {s : Streamer} (h : s.file.length ≤ s.pos) {i : Nat}
    (hi : 2 ≤ i) : blob_at s i = 0 := by
  unfold blob_at
  rw [if_neg]
  omega

theorem get_blob_getD_eof {s : Streamer} (h : s.file.length ≤ s.pos) :
    (streamer_get_blob s)[2]?.getD 0 = 0 ∧ (streamer_get_blob s)[3]?.getD 0 = 0 ∧
    (streamer_get_blob s)[4]?.getD 0 = 0 := by
  refine ⟨?_, ?_, ?_⟩
  · show blob_at s 2 = 0
    exact blob_at_eof h (by omega)
  · show blob_at s 3 = 0
    exact blob_at_eof h (by omega)
  · show blob_at s 4 = 0
    exact blob_at_eof h (by omega)

theorem streamer_peek_at_eof {s : Streamer} (h : at_eof s) :
    streamer_peek s = (none, s) := by
  obtain ⟨f, p, bs, bl, bp, ln, col, pb, lc, pl, pc⟩ := s
  obtain ⟨h1, h2⟩ := h
  simp only at h1 h2
  subst h2
  simp [streamer_peek, h1]

theorem skip_line_splice_at_eof (fuel : Nat) {s : Streamer} (h : at_eof s) :
    skip_line_splice fuel s = s := by
  cases fuel with
  | zero => rfl
  | succ n =>
    have h2 : (streamer_get_blob s)[2]?.getD 0 = 0 := (get_blob_getD_eof h.1).1
    simp [skip_line_splice, h2]

theorem skip_pp_hspace_at_eof (fuel : Nat) {s : Streamer} (h : at_eof s) :
    skip_pp_hspace fuel s = s := by
  cases fuel with
  | zero => rfl
  | succ n =>
    have h2 : (streamer_get_blob s)[2]?.getD 0 = 0 := (get_blob_getD_eof h.1).1
    have hp := streamer_peek_at_eof h
    simp [skip_pp_hspace, h2, hp]

theorem skip_spaces_loop_at_eof (ctx : YeccContext) (fuel : Nat) {lx : Lexer}
    (h : at_eof lx.s) : skip_spaces_loop ctx fuel lx = lx := by
  cases fuel with
  | zero => rfl
  | succ n =>
    have he : streamer_eof lx.s = true := by
      simp only [streamer_eof]
      exact decide_eq_true h.1
    simp [skip_spaces_loop, he]

set_option maxHeartbeats 2000000 in
theorem skip_space_and_comments_at_eof (ctx : YeccContext) (fuel : Nat) {lx : Lexer}
    (h : at_eof lx.s) : skip_space_and_comments ctx fuel lx = lx := by
  obtain ⟨s0, a0, d0, k0, e0⟩ := lx
  simp only at h
  cases fuel with
  | zero => rfl
  | succ n =>
    have hsp := skip_line_splice_at_eof (n + 1) h
    have hlp := @skip_spaces_loop_at_eof ctx (n + 1) ⟨s0, a0, d0, k0, e0⟩ h
    have hp := streamer_peek_at_eof h
    rw [skip_space_and_comments]
    simp only [skip_space_and_comments_step, hsp, hlp, hp]
    simp



theorem streamer_next_none_props {s t : Streamer}
    (h : streamer_next s = (none, t)) :
    t.file = s.file ∧ t.pos = s.pos ∧ t.pushback = s.pushback ∧
    t.file.length ≤ t.pos := by
  obtain ⟨f, p, bs, bl, bp, ln, col, pb, lc, pl, pc⟩ := s
  cases pb with
  | cons e rest => simp [streamer_next] at h
  | nil =>
    rcases hp : streamer_peek ⟨f, p, bs, bl, bp, ln, col, [], lc, pl, pc⟩ with ⟨r, u⟩
    simp only [streamer_next, hp] at h
    cases r with
    | some c =>
      dsimp only at h
      split_ifs at h <;> simp at h
    | none =>
      dsimp only at h
      simp only [Prod.mk.injEq, true_and] at h
      subst h
      revert hp
      simp only [streamer_peek]
      split_ifs with h1 h2 h3 <;> intro hp <;>
        simp only [Prod.mk.injEq] at hp
      · obtain ⟨-, hu⟩ := hp
        subst hu
        exact ⟨rfl, rfl, rfl, h1⟩
      · obtain ⟨-, hu⟩ := hp
        subst hu
        refine ⟨rfl, rfl, rfl, ?_⟩
        show f.length ≤ p
        have hble : min STREAMER_BUFFER_SIZE
            (f.length - (p - p % STREAMER_BUFFER_SIZE)) = 0 := by
          simpa [refill_buffer] using h3
        have hsz : (0:Nat) < STREAMER_BUFFER_SIZE := by
          simp [STREAMER_BUFFER_SIZE]
        have hmod : p % STREAMER_BUFFER_SIZE ≤ p := Nat.mod_le _ _
        omega
      · exact absurd hp.1 (by simp)
      · exact absurd hp.1 (by simp)

theorem streamer_seek_walk_at_eof (fuel : Nat) :
    ∀ (target : Nat) (s : Streamer), s.pushback = [] →
      target ≤ fuel + s.pos → s.file.length ≤ target →
      (streamer_seek_walk fuel target s).2.file = s.file ∧
      s.file.length ≤ (streamer_seek_walk fuel target s).2.pos ∧
      (streamer_seek_walk fuel target s).2.pushback = [] := by
  induction fuel with
  | zero =>
    intro target s hpb hf hl
    refine ⟨rfl, ?_, hpb⟩
    show s.file.length ≤ s.pos
    omega
  | succ n ih =>
    intro target s hpb hf hl
    simp only [streamer_seek_walk]
    by_cases hlt : s.pos < target
    · rw [if_pos hlt]
      rcases hn : streamer_next s with ⟨r, t⟩
      cases r with
      | none =>
        obtain ⟨t1, t2, t3, t4⟩ := streamer_next_none_props hn
        refine ⟨t1, ?_, t3.trans hpb⟩
        rw [← t1]
        exact t4
      | some c =>
        obtain ⟨tp, tf, tpb⟩ := streamer_next_some_state hn
        have htpb : t.pushback = [] := by
          rcases tpb with ⟨e, rest, hcons, -⟩ | ⟨-, h2⟩
          · rw [hpb] at hcons
            exact absurd hcons (by simp)
          · exact h2
        obtain ⟨w1, w2, w3⟩ := ih target t htpb (by omega) (by rw [tf]; exact hl)
        refine ⟨w1.trans tf, ?_, w3⟩
        rw [← tf]
        exact w2
    · rw [if_neg hlt]
      refine ⟨rfl, ?_, hpb⟩
      show s.file.length ≤ s.pos
      omega

theorem streamer_seek_at_eof {s : Streamer} (h : at_eof s) :
    at_eof (streamer_seek s s.pos).2 := by
  obtain ⟨h1, h2⟩ := h
  simp only [streamer_seek]
  by_cases hlt : s.file.length < s.pos
  · rw [if_pos hlt]
    exact ⟨h1, h2⟩
  · rw [if_neg hlt]
    have hw := streamer_seek_walk_at_eof s.pos s.pos
      (refill_buffer { s with pos := 0, buffer_start := 0, buffer_len := 0, buffer_pos := 0, line := 1, column := 1, pushback := [] })
      (by simp [refill_buffer]) (by simp [refill_buffer])
      (by simpa [refill_buffer] using h1)
    obtain ⟨w1, w2, w3⟩ := hw
    refine ⟨?_, w3⟩
    rw [w1]
    simpa [refill_buffer] using w2


theorem lexer_next_rest_at_eof (R : LexReaders) (ctx : YeccContext) (fuel : Nat)
    {lx : Lexer} (h : at_eof lx.s) :
    lexer_next_rest R ctx fuel lx =
      (⟨.eof, streamer_position lx.s, streamer_position lx.s⟩, lx) := by
  obtain ⟨s0, a0, d0, k0, e0⟩ := lx
  simp only at h
  have hsp := skip_pp_hspace_at_eof fuel h
  have hp := streamer_peek_at_eof h
  have he : streamer_eof s0 = true := by
    simp only [streamer_eof]
    exact decide_eq_true h.1
  cases d0 <;> simp [lexer_next_rest, hsp, hp, he]

theorem lexer_next_at_eof (R : LexReaders) (ctx : YeccContext) (fuel : Nat)
    {lx : Lexer} (h : at_eof lx.s) :
    (lexer_next R ctx fuel lx).1.kind = .eof ∧
    at_eof (lexer_next R ctx fuel lx).2.s := by
  obtain ⟨s0, a0, d0, k0, e0⟩ := lx
  simp only at h
  have hsc := @skip_space_and_comments_at_eof ctx fuel ⟨s0, a0, d0, k0, e0⟩ h
  have hb := get_blob_getD_eof h.1
  have hsp := skip_pp_hspace_at_eof fuel h
  have hseek := streamer_seek_at_eof h
  cases a0 with
  | false =>
    have hrest := @lexer_next_rest_at_eof R ctx fuel ⟨s0, false, d0, k0, e0⟩ h
    simp [lexer_next, hsc, hrest, h]
  | true =>
    have hrest := @lexer_next_rest_at_eof R ctx fuel
      ⟨(streamer_seek s0 s0.pos).2, true, d0, k0, e0⟩ hseek
    simp [lexer_next, hsc, hsp, hb.1, hb.2.1, hb.2.2, streamer_position, hrest, hseek]

theorem lexer_nth_at_eof (R : LexReaders) (ctx : YeccContext) (fuel : Nat) :
    ∀ (n : Nat) (lx : Lexer), at_eof lx.s →
      (lexer_nth R ctx fuel n lx).kind = .eof := by
  intro n
  induction n with
  | zero =>
    intro lx h
    exact (lexer_next_at_eof R ctx fuel h).1
  | succ m ih =>
    intro lx h
    exact ih _ (lexer_next_at_eof R ctx fuel h).2

/-- C9: for every reader assignment, context, fuel and lexer state whose
streamer satisfies the invariant and reports EOF, every subsequent
`lexer_next` yields a token of kind EOF (idempotence after EOF); and on
the empty file the very first call returns the EOF token at line 1,
column 1, offset 0. -/
theorem c9_eof_idempotent :
    (∀ (R : LexReaders) (ctx : YeccContext) (fuel : Nat) (lx : Lexer),
      streamer_inv lx.s → streamer_eof lx.s = true →
      ∀ n : Nat, (lexer_nth R ctx fuel n lx).kind = .eof) ∧
    (∀ (R : LexReaders) (fuel : Nat),
      (lexer_next R ⟨false, false⟩ fuel (lexer_init [])).1 =
        ⟨.eof, ⟨1, 1, 0⟩, ⟨1, 1, 0⟩⟩) := by
  constructor
  · intro R ctx fuel lx hinv he n
    apply lexer_nth_at_eof
    have he2 : lx.s.file.length ≤ lx.s.pos := by
      simpa [streamer_eof] using he
    refine ⟨he2, ?_⟩
    have h2 := hinv.2.1
    have h3 : lx.s.pushback.length = 0 := by omega
    exact List.length_eq_zero.mp h3
  · intro R fuel
    cases fuel with
    | zero => rfl
    | succ n => rfl

/-- Witness for C9: the empty file via `lexer_init`, a concrete reader
assignment and fuel 1, checked at the fourth token. -/
theorem c9_eof_idempotent_witness :
    streamer_inv (lexer_init []).s ∧ streamer_eof (lexer_init []).s = true ∧
    (lexer_nth null_readers ⟨false, false⟩ 1 3 (lexer_init [])).kind = .eof ∧
    (lexer_next null_readers ⟨false, false⟩ 1 (lexer_init [])).1 =
      ⟨.eof, ⟨1, 1, 0⟩, ⟨1, 1, 0⟩⟩ :=
  ⟨by decide, by decide,
    c9_eof_idempotent.1 null_readers ⟨false, false⟩ 1 (lexer_init [])
      (by decide) (by decide) 3,
    c9_eof_idempotent.2 null_readers 1⟩


end Yecc
